import Mathlib

/-!
# Multi-chain faucet: admission control of `/api/claim`

A shallow embedding of

* `internal/server/multichain_middleware.go` (`MultiChainLimiter`, `checkLimits`,
  `getClientIP`, `isValidAddress`),
* `internal/server/multichain.go` (`NewMultiChainServer`, `setupRouter`),
* `internal/config/networks.go` and `internal/config/multichain.go`
  (`NetworkConfigs`, `GetNetworkByName`, `AddChainWithKey`),
* `cmd/multichain.go` (`loadMultiChainConfig`, the sample of
  `GenerateMultiChainConfig`),

together with the part of the `ttlcache/v2` cache these functions call
(`NewCache`, `SetTTL`, `Get`, `Set`).

Conventions.

* A Go `string` is a Lean `String`; `len` is the length in bytes of its UTF-8
  encoding.
* `time.Time` and `time.Duration` are integers (nanoseconds).  Every cache call
  reads the clock once; the reading is an explicit argument.
* A Go `map[string]V` is an association list with at most one pair per key.
* A function that mutates a cache or a configuration returns the new one.
* Concurrent `checkLimits` calls are a list of running calls and a schedule
  of their cache calls; each cache call is one step.
* A `float64` is given by the fields of its IEEE 754 encoding.
* The character table of `strings.ToLower` is an argument, `lower`.
-/

namespace Faucet

/-! ## Go maps -/

/-- Go `m[key]` with the comma-ok form: the value stored under `key`, if any. -/
def mapGet {β : Type} : List (String × β) → String → Option β
  | [], _ => none
  | (k, v) :: rest, key => if k = key then some v else mapGet rest key

/-- Go `m[key] = v`: overwrite the value under `key`, or add the pair. -/
def mapSet {β : Type} : List (String × β) → String → β → List (String × β)
  | [], key, v => [(key, v)]
  | (k, w) :: rest, key, v =>
    if k = key then (k, v) :: rest else (k, w) :: mapSet rest key v

/-! ## Go strings -/

/-- Go `len(s)`: the number of bytes of `s`. -/
def len (s : String) : Nat := s.utf8ByteSize

/-- Go `strings.HasPrefix(s, p)`. -/
def HasPrefix (s p : String) : Bool := p.data.isPrefixOf s.data

/-- Pieces of a character list between occurrences of `sep`; `n` separators
give `n + 1` pieces, so the result is never empty. -/
def splitChars (sep : Char) : List Char → List (List Char)
  | [] => [[]]
  | c :: cs =>
    if c = sep then [] :: splitChars sep cs
    else
      match splitChars sep cs with
      | [] => [[c]]
      | piece :: pieces => (c :: piece) :: pieces

/-- Go `strings.Split(s, sep)` for a one-character separator. -/
def Split (s : String) (sep : Char) : List String :=
  (splitChars sep s.data).map String.mk

/-- Go `unicode.IsSpace`. -/
def isSpace (c : Char) : Bool :=
  let n := c.toNat
  n = 0x09 || n = 0x0A || n = 0x0B || n = 0x0C || n = 0x0D || n = 0x20 ||
  n = 0x85 || n = 0xA0 || n = 0x1680 || (0x2000 ≤ n && n ≤ 0x200A) ||
  n = 0x2028 || n = 0x2029 || n = 0x202F || n = 0x205F || n = 0x3000

/-- Go `strings.TrimSpace`: drop leading and trailing white space. -/
def TrimSpace (s : String) : String :=
  String.mk ((s.data.dropWhile isSpace).reverse.dropWhile isSpace).reverse

/-! ## The `ttlcache/v2` cache -/

/-- A cache item (`item.go`): its own time to live and its expiry instant.
The stored value is always `true` in this program and is left out. -/
structure Item where
  ttl : Int
  expireAt : Int
deriving DecidableEq, Repr

/-- The cache (`cache.go`): global time to live, the hit-extension switch and
the items by key.  Expired items stay in `items` until overwritten; every
lookup treats them as absent, as the library does whether or not its
background sweep has removed them yet. -/
structure Cache where
  ttl : Int
  skipTTLExtension : Bool
  items : List (String × Item)
deriving DecidableEq, Repr

/-- The library routine `item.touch()`: restart the countdown of an item that expires. -/
def Item.touch (it : Item) (now : Int) : Item :=
  if it.ttl > 0 then { it with expireAt := now + it.ttl } else it

/-- The library routine `item.expired()`: the expiry instant lies strictly before `now`. -/
def Item.expired (it : Item) (now : Int) : Bool :=
  if it.ttl ≤ 0 then false else decide (it.expireAt < now)

/-- The library routine `ttlcache.NewCache()`: no items, no time to live, hits extend the time to live. -/
def NewCache : Cache := { ttl := 0, skipTTLExtension := false, items := [] }

/-- The library routine `cache.SetTTL(ttl)`. -/
def Cache.SetTTL (c : Cache) (ttl : Int) : Cache := { c with ttl := ttl }

/-- The library routine `cache.getItem(key)`: a live item is returned and, unless extension on hit
is switched off, touched; an absent or expired item is a miss. -/
def Cache.getItem (c : Cache) (key : String) (now : Int) : Cache × Option Item :=
  match mapGet c.items key with
  | none => (c, none)
  | some it =>
    if it.expired now then (c, none)
    else if c.skipTTLExtension || (it.ttl == 0 && c.ttl == 0) then (c, some it)
    else
      let it1 : Item := if it.ttl == 0 then { it with ttl := c.ttl } else it
      let it2 := it1.touch now
      ({ c with items := mapSet c.items key it2 }, some it2)

/-- The library routine `cache.Get(key)`: the boolean is `err == nil` (a hit). -/
def Cache.Get (c : Cache) (key : String) (now : Int) : Cache × Bool :=
  match c.getItem key now with
  | (c1, some _) => (c1, true)
  | (c1, none) => (c1, false)

/-- The library routine `cache.Set(key, data)`, which is `SetWithTTL(key, data, 0)`: the item takes
the global time to live and is touched. -/
def Cache.Set (c : Cache) (key : String) (now : Int) : Cache :=
  match c.getItem key now with
  | (c1, found) =>
    let it0 : Item :=
      match found with
      | some it => { it with ttl := 0 }
      | none => { ttl := 0, expireAt := 0 }
    let it1 : Item := if it0.ttl == 0 then { it0 with ttl := c1.ttl } else it0
    { c1 with items := mapSet c1.items key (it1.touch now) }

/-- Whether `key` is live at `now`: present and not expired. -/
def Cache.live (c : Cache) (key : String) (now : Int) : Bool :=
  match mapGet c.items key with
  | none => false
  | some it => !it.expired now

/-! ## Requests and responses -/

/-- The request headers, through `Header.Get`: the first value stored under a
header name, `""` when there is none. -/
structure Header where
  Get : String → String

/-- The fields of `http.Request` the limiter reads. -/
structure Request where
  Header : Header
  RemoteAddr : String

/-- The decoded body of a claim (`multiChainClaimRequest`). -/
structure multiChainClaimRequest where
  Network : String
  Address : String
deriving DecidableEq, Repr

/-- What `renderJSON` writes: a `claimResponse` message and a status code. -/
structure Response where
  Message : String
  Status : Nat
deriving DecidableEq, Repr

/-! ## `multichain_middleware.go` -/

/-- The function `getClientIP` extracts the client IP considering the proxy configuration. -/
def getClientIP (r : Request) (proxyCount : Int) : String :=
  let fallback : String :=
    let ip := r.Header.Get "X-Real-IP"
    if ip = "" then (Split r.RemoteAddr ':').headD "" else ip
  if proxyCount > 0 then
    let xff := r.Header.Get "X-Forwarded-For"
    if xff ≠ "" then
      let ips := Split xff ','
      if (ips.length : Int) ≥ proxyCount then
        TrimSpace (ips.getD (ips.length - proxyCount.toNat) "")
      else fallback
    else fallback
  else fallback

/-- The function `isValidAddress` validates the Ethereum address format. -/
def isValidAddress (address : String) : Bool :=
  if len address ≠ 42 then false
  else if !HasPrefix address "0x" then false
  else true

/-- The type `MultiChainLimiter` provides rate limiting per network. -/
structure MultiChainLimiter where
  limiters : List (String × Cache)
  proxyCount : Int

/-- The constructor `NewMultiChainLimiter` creates a new multi-chain rate limiter. -/
def NewMultiChainLimiter (limiters : List (String × Cache)) (proxyCount : Int) :
    MultiChainLimiter :=
  { limiters := limiters, proxyCount := proxyCount }

/-- The clock readings of the four cache calls of one `checkLimits`. -/
structure Ticks where
  getAddress : Int
  getIP : Int
  setAddress : Int
  setIP : Int
deriving DecidableEq, Repr

/-- All four cache calls read the same instant. -/
def Ticks.at (t : Int) : Ticks :=
  { getAddress := t, getIP := t, setAddress := t, setIP := t }

/-- The method `checkLimits` validates the rate limiting rules: the new cache and the
error (`none` is `nil`). -/
def MultiChainLimiter.checkLimits (ml : MultiChainLimiter) (limiter : Cache)
    (r : Request) (address : String) (k : Ticks) : Cache × Option String :=
  let ip := getClientIP r ml.proxyCount
  match limiter.Get address k.getAddress with
  | (c1, true) => (c1, some ("address " ++ address ++ " is requesting too frequently"))
  | (c1, false) =>
    match c1.Get ip k.getIP with
    | (c2, true) => (c2, some ("IP " ++ ip ++ " is requesting too frequently"))
    | (c2, false) => ((c2.Set address k.setAddress).Set ip k.setIP, none)

/-- What a middleware did with a request: wrote a response itself, or called
the next handler. -/
inductive Outcome where
  | rendered (resp : Response)
  | next
deriving DecidableEq, Repr

/-- The method `ServeHTTP` of the limiter: `decoded` is what `decodeJSONBody` produced
(`none` when it failed).  The result is the limiters afterwards and what the
middleware did. -/
def MultiChainLimiter.ServeHTTP (ml : MultiChainLimiter) (r : Request)
    (decoded : Option multiChainClaimRequest) (k : Ticks) :
    List (String × Cache) × Outcome :=
  match decoded with
  | none => (ml.limiters, .rendered { Message := "invalid request format", Status := 400 })
  | some req =>
    if !isValidAddress req.Address then
      (ml.limiters, .rendered { Message := "invalid address", Status := 400 })
    else
      match mapGet ml.limiters req.Network with
      | none => (ml.limiters, .rendered { Message := "unsupported network", Status := 400 })
      | some limiter =>
        match ml.checkLimits limiter r req.Address k with
        | (c, some err) =>
          (mapSet ml.limiters req.Network c, .rendered { Message := err, Status := 429 })
        | (c, none) => (mapSet ml.limiters req.Network c, .next)

/-! ## `multichain.go` -/

/-- Go `time.Minute`, in nanoseconds. -/
def Minute : Int := 60000000000

/-- Wrap-around of 64-bit signed arithmetic (`time.Duration` is an `int64`). -/
def wrapInt64 (x : Int) : Int := (x + 2 ^ 63) % 2 ^ 64 - 2 ^ 63

/-- The rate limiter `NewMultiChainServer` creates for a chain whose interval
is `Interval` minutes: `ttlcache.NewCache()` followed by
`SetTTL(time.Duration(Interval) * time.Minute)`, and nothing else. -/
def NewMultiChainServer.limiter (Interval : Int) : Cache :=
  NewCache.SetTTL (wrapInt64 (Interval * Minute))

/-- The limiters `NewMultiChainServer` builds, one per active chain, from the
chains given by network name and interval. -/
def NewMultiChainServer.limiters : List (String × Int) → List (String × Cache)
  | [] => []
  | (network, Interval) :: rest =>
    mapSet (NewMultiChainServer.limiters rest) network (NewMultiChainServer.limiter Interval)

/-- The two handlers that follow the limiter on `/api/claim`: the captcha
middleware (`none` when it passes the request on, otherwise the response it
writes) and the claim handler.  Neither is given the limiters. -/
structure Downstream where
  captcha : Request → Option Response
  claim : Request → Response

/-- Which handler of the chain wrote the response. -/
inductive Served where
  | byLimiter (resp : Response)
  | byCaptcha (resp : Response)
  | byClaim (resp : Response)
deriving DecidableEq, Repr

/-- The `/api/claim` route of `setupRouter`:
`negroni.New(limiter, captcha, claim handler)`, each handler running only when
the one before it calls `next`. -/
def setupRouter.claim (ml : MultiChainLimiter) (d : Downstream) (r : Request)
    (decoded : Option multiChainClaimRequest) (k : Ticks) :
    List (String × Cache) × Served :=
  match ml.ServeHTTP r decoded k with
  | (ls, .rendered resp) => (ls, .byLimiter resp)
  | (ls, .next) =>
    match d.captcha r with
    | some resp => (ls, .byCaptcha resp)
    | none => (ls, .byClaim (d.claim r))

/-- One request as it reaches `/api/claim`: the request, its decoded body and
the clock readings of the limiter. -/
structure Arrival where
  r : Request
  req : multiChainClaimRequest
  k : Ticks

/-- The limiters after a sequence of requests to `/api/claim`, served one after
another. -/
def serveAll (proxyCount : Int) (d : Downstream) :
    List (String × Cache) → List Arrival → List (String × Cache)
  | ls, [] => ls
  | ls, x :: xs =>
    serveAll proxyCount d
      (setupRouter.claim (NewMultiChainLimiter ls proxyCount) d x.r (some x.req) x.k).1 xs

/-- The cache of one pool after a sequence of `checkLimits` calls on it, made
one after another (the network named by each arrival is not looked at). -/
def checkAll (ml : MultiChainLimiter) : Cache → List Arrival → Cache
  | c, [] => c
  | c, x :: xs => checkAll ml (ml.checkLimits c x.r x.req.Address x.k).1 xs

/-! ## Concurrent `checkLimits` calls -/

/-- Where a running `checkLimits` stands: the cache call it makes next, or
the error it has returned (`none` is `nil`). -/
inductive Stage where
  | getAddress
  | getIP
  | setAddress
  | setIP
  | returned (err : Option String)
deriving DecidableEq, Repr

/-- A running `checkLimits`: its address, its client identity (computed
before the first cache call) and its stage. -/
structure Running where
  address : String
  ip : String
  stage : Stage
deriving DecidableEq, Repr

/-- A `checkLimits` that has computed the client identity and made no cache
call yet. -/
def MultiChainLimiter.start (ml : MultiChainLimiter) (r : Request) (address : String) :
    Running :=
  { address := address, ip := getClientIP r ml.proxyCount, stage := .getAddress }

/-- The next cache call of a running `checkLimits`, made at instant `now`, and
the branch taken on its result.  Every call of the cache holds the cache's
lock from start to end, so it is one step; `checkLimits` holds no lock of its
own between its four calls. -/
def Running.step (limiter : Cache) (now : Int) (c : Running) : Cache × Running :=
  match c.stage with
  | .getAddress =>
    match limiter.Get c.address now with
    | (c1, true) =>
      (c1, { c with stage :=
        (Stage.returned (some ("address " ++ c.address ++ " is requesting too frequently"))) })
    | (c1, false) => (c1, { c with stage := Stage.getIP })
  | .getIP =>
    match limiter.Get c.ip now with
    | (c1, true) =>
      (c1, { c with stage :=
        (Stage.returned (some ("IP " ++ c.ip ++ " is requesting too frequently"))) })
    | (c1, false) => (c1, { c with stage := Stage.setAddress })
  | .setAddress => (limiter.Set c.address now, { c with stage := Stage.setIP })
  | .setIP => (limiter.Set c.ip now, { c with stage := Stage.returned none })
  | .returned _ => (limiter, c)

/-- Several running `checkLimits` on one cache under a schedule: each entry of
the schedule names the call that makes its next cache call and gives the clock
reading of that call. -/
def runSchedule : Cache → List Running → List (Nat × Int) → Cache × List Running
  | limiter, calls, [] => (limiter, calls)
  | limiter, calls, (i, now) :: rest =>
    match calls.get? i with
    | none => runSchedule limiter calls rest
    | some c =>
      runSchedule (c.step limiter now).1 (calls.set i (c.step limiter now).2) rest

/-- The schedule of one call, number `i`, running from start to end with the
clock readings `k`. -/
def uninterrupted (i : Nat) (k : Ticks) : List (Nat × Int) :=
  [(i, k.getAddress), (i, k.getIP), (i, k.setAddress), (i, k.setIP)]

/-- The schedule in which the calls number `i`, `i + 1`, ... run one after
another, each from start to end. -/
def oneAfterAnother : Nat → List Ticks → List (Nat × Int)
  | _, [] => []
  | i, k :: ks => uninterrupted i k ++ oneAfterAnother (i + 1) ks

/-- A schedule of two calls in which both make their two `Get` calls before
either makes a `Set` call. -/
def bothCheckFirst (k0 k1 : Ticks) : List (Nat × Int) :=
  [(0, k0.getAddress), (0, k0.getIP), (1, k1.getAddress), (1, k1.getIP),
   (0, k0.setAddress), (0, k0.setIP), (1, k1.setAddress), (1, k1.setIP)]

/-- The calls of a sequence once each has run from start to end, one after
another: every call has returned what `checkLimits` returns on the cache the
calls before it have left. -/
def finished (ml : MultiChainLimiter) : Cache → List Arrival → List Running
  | _, [] => []
  | c, x :: xs =>
    { address := x.req.Address, ip := getClientIP x.r ml.proxyCount,
      stage := (Stage.returned (ml.checkLimits c x.r x.req.Address x.k).2) } ::
      finished ml (ml.checkLimits c x.r x.req.Address x.k).1 xs

/-- The results of a sequence of `checkLimits` calls on one cache, made one
after another. -/
def checkOutcomes (ml : MultiChainLimiter) : Cache → List Arrival → List (Option String)
  | _, [] => []
  | c, x :: xs =>
    (ml.checkLimits c x.r x.req.Address x.k).2 ::
      checkOutcomes ml (ml.checkLimits c x.r x.req.Address x.k).1 xs

/-! ## `internal/config` -/

/-- A Go `float64`, by the three fields of its IEEE 754 encoding: the sign
bit, the biased exponent (0 to 2047) and the 52-bit mantissa. -/
structure Float64 where
  sign : Bool
  exponent : Nat
  mantissa : Nat
deriving DecidableEq, Repr

/-- Not a number: exponent all ones and a non-zero mantissa. -/
def Float64.isNaN (x : Float64) : Bool := x.exponent == 2047 && x.mantissa != 0

/-- Go `x == 0`: true of both zeros (`+0` and `-0`), false of everything else. -/
def Float64.isZero (x : Float64) : Bool := x.exponent == 0 && x.mantissa == 0

/-- Go `x > 0`: the sign bit is clear and `x` is neither a zero nor a NaN. -/
def Float64.isPositive (x : Float64) : Bool := !x.sign && !x.isZero && !x.isNaN

/-- Go `x < 0`: the sign bit is set and `x` is neither a zero nor a NaN. -/
def Float64.isNegative (x : Float64) : Bool := x.sign && !x.isZero && !x.isNaN

/-- The constant `1.0`. -/
def Float64.one : Float64 := { sign := false, exponent := 1023, mantissa := 0 }

/-- The constant `0.1` (`0x3FB999999999999A`). -/
def Float64.tenth : Float64 :=
  { sign := false, exponent := 1019, mantissa := 0x999999999999A }

/-- The constant `-1.0`. -/
def Float64.minusOne : Float64 := { sign := true, exponent := 1023, mantissa := 0 }

/-- The zero value of `float64`, `+0`. -/
def Float64.zero : Float64 := { sign := false, exponent := 0, mantissa := 0 }

/-- Go `strings.ToLower` on well-formed text: every character is mapped by
`unicode.ToLower`, which is the argument `lower`. -/
def ToLower (lower : Char → Char) (s : String) : String := String.mk (s.data.map lower)

/-- A parsed signing key (`*ecdsa.PrivateKey`); the program only stores it. -/
structure ecdsa.PrivateKey where
  D : Nat
deriving DecidableEq, Repr

/-- The record `NetworkConfig` of `networks.go`. -/
structure NetworkConfig where
  ChainID : Int
  Symbol : String
  Name : String
  IsTestnet : Bool
  DefaultRPC : String
deriving DecidableEq, Repr

/-- Network configurations with chain IDs and default settings. -/
def NetworkConfigs : List (String × NetworkConfig) :=
  [("mainnet", { ChainID := 1, Symbol := "ETH", Name := "Ethereum Mainnet", IsTestnet := false, DefaultRPC := "https://eth.public-rpc.com" }),
   ("sepolia", { ChainID := 11155111, Symbol := "ETH", Name := "Ethereum Sepolia", IsTestnet := true, DefaultRPC := "https://sepolia.infura.io/v3/" }),
   ("holesky", { ChainID := 17000, Symbol := "ETH", Name := "Ethereum Holesky", IsTestnet := true, DefaultRPC := "https://ethereum-holesky.publicnode.com" }),
   ("goerli", { ChainID := 5, Symbol := "ETH", Name := "Ethereum Goerli", IsTestnet := true, DefaultRPC := "https://goerli.infura.io/v3/" }),
   ("polygon", { ChainID := 137, Symbol := "POL", Name := "Polygon Mainnet", IsTestnet := false, DefaultRPC := "https://polygon-rpc.com" }),
   ("polygon-amoy", { ChainID := 80002, Symbol := "POL", Name := "Polygon Amoy", IsTestnet := true, DefaultRPC := "https://rpc-amoy.polygon.technology" }),
   ("bsc", { ChainID := 56, Symbol := "BNB", Name := "BNB Smart Chain", IsTestnet := false, DefaultRPC := "https://bsc-dataseed.binance.org" }),
   ("bsc-testnet", { ChainID := 97, Symbol := "BNB", Name := "BNB Smart Chain Testnet", IsTestnet := true, DefaultRPC := "https://data-seed-prebsc-1-s1.binance.org:8545" }),
   ("arbitrum", { ChainID := 42161, Symbol := "ETH", Name := "Arbitrum One", IsTestnet := false, DefaultRPC := "https://arb1.arbitrum.io/rpc" }),
   ("arbitrum-sepolia", { ChainID := 421614, Symbol := "ETH", Name := "Arbitrum Sepolia", IsTestnet := true, DefaultRPC := "https://sepolia-rollup.arbitrum.io/rpc" }),
   ("optimism", { ChainID := 10, Symbol := "ETH", Name := "Optimism Mainnet", IsTestnet := false, DefaultRPC := "https://mainnet.optimism.io" }),
   ("optimism-sepolia", { ChainID := 11155420, Symbol := "ETH", Name := "Optimism Sepolia", IsTestnet := true, DefaultRPC := "https://sepolia.optimism.io" }),
   ("avalanche", { ChainID := 43114, Symbol := "AVAX", Name := "Avalanche C-Chain", IsTestnet := false, DefaultRPC := "https://api.avax.network/ext/bc/C/rpc" }),
   ("avalanche-fuji", { ChainID := 43113, Symbol := "AVAX", Name := "Avalanche Fuji", IsTestnet := true, DefaultRPC := "https://api.avax-test.network/ext/bc/C/rpc" }),
   ("base", { ChainID := 8453, Symbol := "ETH", Name := "Base Mainnet", IsTestnet := false, DefaultRPC := "https://mainnet.base.org" }),
   ("base-sepolia", { ChainID := 84532, Symbol := "ETH", Name := "Base Sepolia", IsTestnet := true, DefaultRPC := "https://sepolia.base.org" }),
   ("fantom", { ChainID := 250, Symbol := "FTM", Name := "Fantom Opera", IsTestnet := false, DefaultRPC := "https://rpc.ftm.tools" }),
   ("fantom-testnet", { ChainID := 4002, Symbol := "FTM", Name := "Fantom Testnet", IsTestnet := true, DefaultRPC := "https://rpc.testnet.fantom.network" }),
   ("linea", { ChainID := 59144, Symbol := "ETH", Name := "Linea Mainnet", IsTestnet := false, DefaultRPC := "https://rpc.linea.build" }),
   ("linea-sepolia", { ChainID := 59141, Symbol := "ETH", Name := "Linea Sepolia", IsTestnet := true, DefaultRPC := "https://rpc.sepolia.linea.build" }),
   ("zksync", { ChainID := 324, Symbol := "ETH", Name := "zkSync Era", IsTestnet := false, DefaultRPC := "https://mainnet.era.zksync.io" }),
   ("zksync-sepolia", { ChainID := 300, Symbol := "ETH", Name := "zkSync Sepolia", IsTestnet := true, DefaultRPC := "https://sepolia.era.zksync.dev" })]

/-- The function `GetNetworkByName` returns the network configuration for a
given network name (`none` when `exists` is false). -/
def GetNetworkByName (lower : Char → Char) (name : String) : Option NetworkConfig :=
  mapGet NetworkConfigs (ToLower lower name)

/-- The record `ChainInstance` represents a configured blockchain instance. -/
structure ChainInstance where
  Network : String
  Config : NetworkConfig
  PrivateKey : ecdsa.PrivateKey
  Provider : String
  Payout : Float64
  Interval : Int
deriving DecidableEq, Repr

/-- The record `MultiChainConfig` holds configuration for multiple blockchain
networks. -/
structure MultiChainConfig where
  Chains : List (String × ChainInstance)
  DefaultChain : String
  HTTPPort : Int
  ProxyCount : Int
  HcaptchaSiteKey : String
  HcaptchaSecret : String
deriving DecidableEq, Repr

/-- The record `ChainConfigInput` represents input configuration for a single
chain. -/
structure ChainConfigInput where
  Network : String
  Provider : String
  PrivateKey : String
  Keystore : String
  KeyPass : String
  Payout : Float64
  Interval : Int
deriving DecidableEq, Repr

/-- The constructor `NewMultiChainConfig` creates a new multi-chain
configuration. -/
def NewMultiChainConfig : MultiChainConfig :=
  { Chains := [], DefaultChain := "", HTTPPort := 8080, ProxyCount := 0,
    HcaptchaSiteKey := "", HcaptchaSecret := "" }

/-- The second half of `AddChainWithKey`, once the provider is known: default
values, the new chain instance, its registration and the default chain. -/
def MultiChainConfig.AddChainWithKey.register (mc : MultiChainConfig)
    (input : ChainConfigInput) (privateKey : ecdsa.PrivateKey)
    (networkConfig : NetworkConfig) (provider : String) : MultiChainConfig :=
  let payout := if input.Payout.isZero then Float64.one else input.Payout
  let interval := if input.Interval = 0 then 1440 else input.Interval
  let chainInstance : ChainInstance :=
    { Network := input.Network, Config := networkConfig, PrivateKey := privateKey,
      Provider := provider, Payout := payout, Interval := interval }
  let chains := mapSet mc.Chains input.Network chainInstance
  if mc.DefaultChain = "" then
    { mc with Chains := chains, DefaultChain := input.Network }
  else { mc with Chains := chains }

/-- The method `AddChainWithKey` adds a blockchain network with a parsed
private key: the configuration afterwards and the error (`none` is `nil`). -/
def MultiChainConfig.AddChainWithKey (lower : Char → Char) (mc : MultiChainConfig)
    (input : ChainConfigInput) (privateKey : ecdsa.PrivateKey) :
    MultiChainConfig × Option String :=
  match GetNetworkByName lower input.Network with
  | none => (mc, some ("unsupported network: " ++ input.Network))
  | some networkConfig =>
    if input.Provider = "" then
      if networkConfig.DefaultRPC = "" then
        (mc, some ("no provider specified and no default RPC for network " ++ input.Network))
      else
        (MultiChainConfig.AddChainWithKey.register mc input privateKey networkConfig
          networkConfig.DefaultRPC, none)
    else
      (MultiChainConfig.AddChainWithKey.register mc input privateKey networkConfig
        input.Provider, none)

/-- The method `GetChain` returns a specific chain instance (`none` when
`exists` is false). -/
def MultiChainConfig.GetChain (mc : MultiChainConfig) (network : String) :
    Option ChainInstance :=
  mapGet mc.Chains network

/-- The configuration after a sequence of `AddChainWithKey` calls, made one
after another; a call that returns an error does not stop the sequence. -/
def addChains (lower : Char → Char) :
    MultiChainConfig → List (ChainConfigInput × ecdsa.PrivateKey) → MultiChainConfig
  | mc, [] => mc
  | mc, (input, key) :: rest => addChains lower (mc.AddChainWithKey lower input key).1 rest

/-! ## `cmd/multichain.go` -/

/-- One network of the configuration file. -/
structure NetworkConfigFile where
  Name : String
  Provider : String
  PrivateKey : String
  Keystore : String
  KeyPass : String
  Payout : Float64
  Interval : Int
deriving DecidableEq, Repr

/-- The record `MultiChainConfigFile` represents the structure of the
multi-chain configuration file. -/
structure MultiChainConfigFile where
  HTTPPort : Int
  ProxyCount : Int
  HcaptchaSiteKey : String
  HcaptchaSecret : String
  DefaultNetwork : String
  Networks : List NetworkConfigFile
deriving DecidableEq, Repr

/-- The two key readers `loadMultiChainConfig` calls: `parsePrivateKeyHex` on
an inline key and `parseKeystoreFile` on a keystore path and a password path.
Both end in library or file-system code and are taken as given. -/
structure KeyReaders where
  parsePrivateKeyHex : String → Except String ecdsa.PrivateKey
  parseKeystoreFile : String → String → Except String ecdsa.PrivateKey

/-- The `chainInput` that `loadMultiChainConfig` builds from a network of the
file: name, provider, payout and interval. -/
def chainInputOf (netConfig : NetworkConfigFile) : ChainConfigInput :=
  { Network := netConfig.Name, Provider := netConfig.Provider, PrivateKey := "",
    Keystore := "", KeyPass := "", Payout := netConfig.Payout,
    Interval := netConfig.Interval }

/-- The loop of `loadMultiChainConfig` over the networks of the file: each is
given its key and added; the first error ends the load. -/
def loadMultiChainConfig.addNetworks (lower : Char → Char) (readers : KeyReaders) :
    MultiChainConfig → List NetworkConfigFile → Except String MultiChainConfig
  | multiConfig, [] => .ok multiConfig
  | multiConfig, netConfig :: rest =>
    let chainInput := chainInputOf netConfig
    let parsed : Except String ecdsa.PrivateKey :=
      if netConfig.PrivateKey ≠ "" then
        match readers.parsePrivateKeyHex netConfig.PrivateKey with
        | .ok key => .ok key
        | .error err =>
          .error ("failed to parse private key for " ++ netConfig.Name ++ ": " ++ err)
      else if netConfig.Keystore ≠ "" then
        match readers.parseKeystoreFile netConfig.Keystore netConfig.KeyPass with
        | .ok key => .ok key
        | .error err =>
          .error ("failed to parse keystore for " ++ netConfig.Name ++ ": " ++ err)
      else
        .error ("network " ++ netConfig.Name ++ " requires either private_key or keystore")
    match parsed with
    | .error err => .error err
    | .ok privateKey =>
      match multiConfig.AddChainWithKey lower chainInput privateKey with
      | (_, some err) => .error ("failed to add network " ++ netConfig.Name ++ ": " ++ err)
      | (added, none) => loadMultiChainConfig.addNetworks lower readers added rest

/-- The function `loadMultiChainConfig` from the point where the file has been
read and parsed into `fileConfig`. -/
def loadMultiChainConfig (lower : Char → Char) (readers : KeyReaders)
    (fileConfig : MultiChainConfigFile) : Except String MultiChainConfig :=
  let multiConfig : MultiChainConfig :=
    { NewMultiChainConfig with
      HTTPPort := fileConfig.HTTPPort, ProxyCount := fileConfig.ProxyCount,
      HcaptchaSiteKey := fileConfig.HcaptchaSiteKey,
      HcaptchaSecret := fileConfig.HcaptchaSecret }
  match loadMultiChainConfig.addNetworks lower readers multiConfig fileConfig.Networks with
  | .error err => .error err
  | .ok loaded =>
    if fileConfig.DefaultNetwork ≠ "" then
      match loaded.GetChain fileConfig.DefaultNetwork with
      | none =>
        .error ("default network " ++ fileConfig.DefaultNetwork ++ " is not configured")
      | some _ => .ok { loaded with DefaultChain := fileConfig.DefaultNetwork }
    else .ok loaded

/-- The first network of the sample configuration. -/
def GenerateMultiChainConfig.sepolia : NetworkConfigFile :=
  { Name := "sepolia", Provider := "", PrivateKey := "0x1234567890abcdef...",
    Keystore := "", KeyPass := "", Payout := Float64.one, Interval := 1440 }

/-- The second network of the sample configuration. -/
def GenerateMultiChainConfig.polygonMumbai : NetworkConfigFile :=
  { Name := "polygon-mumbai", Provider := "", PrivateKey := "0x1234567890abcdef...",
    Keystore := "", KeyPass := "", Payout := Float64.one, Interval := 1440 }

/-- The third network of the sample configuration. -/
def GenerateMultiChainConfig.bscTestnet : NetworkConfigFile :=
  { Name := "bsc-testnet", Provider := "", PrivateKey := "0x1234567890abcdef...",
    Keystore := "", KeyPass := "", Payout := Float64.tenth, Interval := 1440 }

/-- The sample configuration `GenerateMultiChainConfig` writes out. -/
def GenerateMultiChainConfig.sampleConfig : MultiChainConfigFile :=
  { HTTPPort := 8080, ProxyCount := 0, HcaptchaSiteKey := "", HcaptchaSecret := "",
    DefaultNetwork := "sepolia",
    Networks :=
      [GenerateMultiChainConfig.sepolia, GenerateMultiChainConfig.polygonMumbai,
       GenerateMultiChainConfig.bscTestnet] }

/-- The network name of the first call, in a sequence of `AddChainWithKey`
calls made one after another, that returns no error; `none` when every call
fails. -/
def firstAdded (lower : Char → Char) :
    MultiChainConfig → List (ChainConfigInput × ecdsa.PrivateKey) → Option String
  | _, [] => none
  | mc, (input, key) :: rest =>
    match mc.AddChainWithKey lower input key with
    | (_, none) => some input.Network
    | (failed, some _) => firstAdded lower failed rest

/-! ## The claims' own notions -/

/-- A hexadecimal digit: `0`-`9`, `a`-`f` or `A`-`F`. -/
def isHexDigit (c : Char) : Bool :=
  let n := c.toNat
  (0x30 ≤ n && n ≤ 0x39) || (0x61 ≤ n && n ≤ 0x66) || (0x41 ≤ n && n ≤ 0x46)

/-- A well-formed account identifier, in the words of the specification: a
string of 42 characters made of the prefix `0x` followed by hexadecimal
digits only. -/
def wellFormedAddress (a : String) : Bool :=
  a.data.length == 42 && HasPrefix a "0x" && (a.data.drop 2).all isHexDigit

/-- The entry `p` places from the end of a chain, the last entry being at
place 1; `none` when the chain has no such entry. -/
def entryFromEnd (chain : List String) (p : Nat) : Option String :=
  if p = 0 then none else chain.reverse.get? (p - 1)

/-- The text of `RemoteAddr` before its first colon: the host of a
`host:port` address whose host has no colon. -/
def directAddress (r : Request) : String :=
  String.mk (r.RemoteAddr.data.takeWhile (fun c => c != ':'))

/-- The client identity in the words of the specification: with a positive
proxy count the trimmed entry that many places from the end of the
`X-Forwarded-For` chain, otherwise the direct connection address. -/
def claimedClientIP (r : Request) (proxyCount : Int) : String :=
  if proxyCount > 0 then
    TrimSpace ((entryFromEnd (Split (r.Header.Get "X-Forwarded-For") ',') proxyCount.toNat).getD "")
  else directAddress r

/-- The invariant of the default chain: it is empty exactly when no pool is
registered, and otherwise it is a key of `Chains`. -/
def DefaultChainOK (mc : MultiChainConfig) : Prop :=
  (mc.DefaultChain = "" ↔ mc.Chains = []) ∧
  (mc.DefaultChain ≠ "" → ∃ pool, mc.GetChain mc.DefaultChain = some pool)

/-! ## Sample data -/

/-- A request given by its `X-Forwarded-For` header, its `X-Real-IP` header and
its remote address. -/
def mkRequest (xff realIP remote : String) : Request :=
  { Header :=
      { Get := fun name =>
          if name = "X-Forwarded-For" then xff
          else if name = "X-Real-IP" then realIP
          else "" },
    RemoteAddr := remote }

/-- A well-formed address. -/
def addrA : String := "0xaaaaaaaaaaaaaaaaaaaaaaaaaaaaaaaaaaaaaaaa"

/-- Another well-formed address. -/
def addrB : String := "0xbbbbbbbbbbbbbbbbbbbbbbbbbbbbbbbbbbbbbbbb"

/-- A client connecting directly from `203.0.113.7`. -/
def clientOne : Request := mkRequest "" "" "203.0.113.7:51000"

/-- A client connecting directly from `198.51.100.9`. -/
def clientTwo : Request := mkRequest "" "" "198.51.100.9:40222"

/-- A third client, connecting directly from `192.0.2.33`. -/
def clientThree : Request := mkRequest "" "" "192.0.2.33:40222"

/-- A client that sends the address `addrB` in its `X-Real-IP` header. -/
def clientNamedB : Request := mkRequest "" addrB "203.0.113.7:51000"

/-- The limiter of a pool with a one-minute interval. -/
def minuteLimiter : Cache := NewMultiChainServer.limiter 1

/-- The limiter of a pool with an interval of 307445735 minutes. -/
def longLimiter : Cache := NewMultiChainServer.limiter 307445735

/-- A middleware with the limiters of `sepolia` (one minute) and `holesky`
(two minutes), no trusted proxy. -/
def sampleLimiter : MultiChainLimiter :=
  NewMultiChainLimiter (NewMultiChainServer.limiters [("sepolia", 1), ("holesky", 2)]) 0

/-- A captcha middleware that rejects every request. -/
def rejectingCaptcha : Request → Option Response :=
  fun _ => some { Message := "Captcha verification failed, please try again", Status := 429 }

/-- Handlers after the limiter whose captcha rejects every request. -/
def rejectingDownstream : Downstream :=
  { captcha := rejectingCaptcha,
    claim := fun _ => { Message := "Txhash: 0x00", Status := 200 } }

/-- Handlers after the limiter whose captcha passes every request. -/
def passingDownstream : Downstream :=
  { captcha := fun _ => none,
    claim := fun _ => { Message := "Txhash: 0x00", Status := 200 } }

/-- A 41-byte address. -/
def addrShort : String := "0xaaaaaaaaaaaaaaaaaaaaaaaaaaaaaaaaaaaaaaa"

/-- The prefix `0x` followed by twenty letters `é` (U+00E9, two bytes each):
22 characters, 42 bytes. -/
def addrAccented : String := "0xéééééééééééééééééééé"

/-- A 42-byte string that starts with `0x` and has no hexadecimal digit after it. -/
def addrNotHex : String := "0xzzzzzzzzzzzzzzzzzzzzzzzzzzzzzzzzzzzzzzzz"

/-- Two claims on `holesky`: `addrA` at instant 0 and `addrB` a second later. -/
def holeskyArrivals : List Arrival :=
  [{ r := clientOne, req := { Network := "holesky", Address := addrA }, k := Ticks.at 0 },
   { r := clientTwo, req := { Network := "holesky", Address := addrB },
     k := Ticks.at 1000000000 }]

/-- A direct client from `203.0.113.7` that sends `X-Real-IP: 7.7.7.7`. -/
def clientWithRealIP : Request := mkRequest "" "7.7.7.7" "203.0.113.7:51000"

/-- A client from `203.0.113.7` whose `X-Forwarded-For` chain has one entry. -/
def clientShortChain : Request := mkRequest "10.0.0.1" "" "203.0.113.7:51000"

/-- A client behind proxies, with a chain of three entries. -/
def clientLongChain : Request :=
  mkRequest "10.0.0.1, 10.0.0.2 ,10.0.0.3" "" "203.0.113.7:51000"

/-- Between two claims for `addrA`: a granted claim for `addrB` by a second
client at 10 s and the same claim, denied, at 20 s. -/
def betweenArrivals : List Arrival :=
  [{ r := clientTwo, req := { Network := "sepolia", Address := addrB },
     k := Ticks.at 10000000000 },
   { r := clientTwo, req := { Network := "sepolia", Address := addrB },
     k := Ticks.at 20000000000 }]

/-- A parsed signing key. -/
def sampleKey : ecdsa.PrivateKey := { D := 7 }

/-- Key readers that accept everything. -/
def sampleReaders : KeyReaders :=
  { parsePrivateKeyHex := fun _ => .ok sampleKey,
    parseKeystoreFile := fun _ _ => .ok sampleKey }

/-- An input naming a network that is not in the catalog. -/
def inputUnknown : ChainConfigInput :=
  { Network := "unknown-net", Provider := "", PrivateKey := "", Keystore := "", KeyPass := "",
    Payout := Float64.zero, Interval := 0 }

/-- An input naming `Sepolia` in mixed case, everything else left at its zero
value. -/
def inputSepolia : ChainConfigInput :=
  { Network := "Sepolia", Provider := "", PrivateKey := "", Keystore := "", KeyPass := "",
    Payout := Float64.zero, Interval := 0 }

/-- An input for `holesky` with its own provider, payout and interval. -/
def inputHolesky : ChainConfigInput :=
  { Network := "holesky", Provider := "https://rpc.example.org", PrivateKey := "",
    Keystore := "", KeyPass := "", Payout := Float64.tenth, Interval := 60 }

/-- An input for `sepolia` with a negative payout and a negative interval. -/
def inputNegative : ChainConfigInput :=
  { Network := "sepolia", Provider := "", PrivateKey := "", Keystore := "", KeyPass := "",
    Payout := Float64.minusOne, Interval := -5 }

/-- A configuration file with two catalog networks and no default network. -/
def twoNetworksFile : MultiChainConfigFile :=
  { HTTPPort := 8080, ProxyCount := 0, HcaptchaSiteKey := "", HcaptchaSecret := "",
    DefaultNetwork := "",
    Networks := [GenerateMultiChainConfig.bscTestnet, GenerateMultiChainConfig.sepolia] }

/-- A claim for `addrA` on `sepolia` by a first client at instant 0. -/
def firstArrival : Arrival :=
  { r := clientOne, req := { Network := "sepolia", Address := addrA }, k := Ticks.at 0 }

/-- Two more claims for `addrA`: by a second client at 1 s and by the first
client again at 2 s. -/
def laterArrivals : List Arrival :=
  [{ r := clientTwo, req := { Network := "sepolia", Address := addrA },
     k := Ticks.at 1000000000 },
   { r := clientOne, req := { Network := "sepolia", Address := addrA },
     k := Ticks.at 2000000000 }]

/-! ## Maps -/

theorem mapGet_mapSet_self {β : Type} (m : List (String × β)) (key : String) (v : β) :
    mapGet (mapSet m key v) key = some v := by
  induction m with
  | nil => simp [mapSet, mapGet]
  | cons p rest ih =>
    obtain ⟨k, w⟩ := p
    by_cases h : k = key
    · simp [mapSet, mapGet, h]
    · simp [mapSet, mapGet, h, ih]

theorem mapGet_mapSet_ne {β : Type} (m : List (String × β)) (key other : String) (v : β)
    (h : other ≠ key) : mapGet (mapSet m key v) other = mapGet m other := by
  induction m with
  | nil =>
    have h2 : ¬ key = other := fun e => h e.symm
    simp [mapSet, mapGet, h2]
  | cons p rest ih =>
    obtain ⟨k, w⟩ := p
    by_cases hk : k = key
    · subst hk
      have h2 : ¬ k = other := fun e => h e.symm
      simp [mapSet, mapGet, h2]
    · by_cases ho : k = other
      · subst ho
        simp [mapSet, mapGet, hk]
      · simp [mapSet, mapGet, hk, ho, ih]

/-! ## The cache -/

theorem getItem_miss (c : Cache) (key : String) (now : Int)
    (h : c.live key now = false) : c.getItem key now = (c, none) := by
  unfold Cache.live at h
  unfold Cache.getItem
  cases hm : mapGet c.items key with
  | none => rfl
  | some it =>
    rw [hm] at h
    have he : it.expired now = true := by simpa using h
    simp [he]

theorem getItem_hit (c : Cache) (key : String) (now : Int)
    (h : c.live key now = true) : ∃ it, (c.getItem key now).2 = some it := by
  unfold Cache.live at h
  unfold Cache.getItem
  cases hm : mapGet c.items key with
  | none => rw [hm] at h; cases h
  | some it =>
    rw [hm] at h
    have he : it.expired now = false := by simpa using h
    simp only [he]
    by_cases hs : (c.skipTTLExtension || (it.ttl == 0 && c.ttl == 0)) = true
    · exact ⟨it, by simp [hs]⟩
    · exact ⟨_, by simp [hs]; rfl⟩

theorem Get_miss (c : Cache) (key : String) (now : Int)
    (h : c.live key now = false) : c.Get key now = (c, false) := by
  unfold Cache.Get
  rw [getItem_miss c key now h]

theorem Get_hit (c : Cache) (key : String) (now : Int)
    (h : c.live key now = true) : (c.Get key now).2 = true := by
  obtain ⟨it, hit⟩ := getItem_hit c key now h
  unfold Cache.Get
  cases hg : c.getItem key now with
  | mk c1 found =>
    rw [hg] at hit
    simp only at hit
    subst hit
    rfl

theorem getItem_ttl (c : Cache) (key : String) (now : Int) :
    (c.getItem key now).1.ttl = c.ttl := by
  unfold Cache.getItem
  split
  · rfl
  · split
    · rfl
    · split <;> rfl

theorem getItem_other (c : Cache) (key other : String) (now : Int) (h : other ≠ key) :
    mapGet (c.getItem key now).1.items other = mapGet c.items other := by
  unfold Cache.getItem
  split
  · rfl
  · split
    · rfl
    · split
      · rfl
      · exact mapGet_mapSet_ne _ _ _ _ h

theorem Set_ttl (c : Cache) (key : String) (now : Int) : (c.Set key now).ttl = c.ttl := by
  unfold Cache.Set
  exact getItem_ttl c key now

theorem Set_other (c : Cache) (key other : String) (now : Int) (h : other ≠ key) :
    mapGet (c.Set key now).items other = mapGet c.items other := by
  unfold Cache.Set
  simp only
  rw [mapGet_mapSet_ne _ _ _ _ h]
  exact getItem_other c key other now h

/-- After `Set`, the key holds an item with the global time to live; when that
is positive the item expires exactly that long after the call. -/
theorem Set_self (c : Cache) (key : String) (now : Int) :
    ∃ e, mapGet (c.Set key now).items key = some { ttl := c.ttl, expireAt := e } ∧
      (0 < c.ttl → e = now + c.ttl) := by
  unfold Cache.Set
  simp only [mapGet_mapSet_self, getItem_ttl]
  by_cases hpos : 0 < c.ttl
  · refine ⟨now + c.ttl, ?_, fun _ => rfl⟩
    have hne : ¬ c.ttl = 0 := by omega
    cases (c.getItem key now).2 <;> simp [Item.touch, hpos]
  · cases hf : (c.getItem key now).2 with
    | none =>
      refine ⟨0, ?_, fun h => absurd h hpos⟩
      simp [Item.touch, hpos]
    | some it =>
      refine ⟨it.expireAt, ?_, fun h => absurd h hpos⟩
      simp [Item.touch, hpos]

theorem live_of_item (c : Cache) (key : String) (now : Int) (it : Item)
    (hm : mapGet c.items key = some it) (h : 0 < it.ttl → now ≤ it.expireAt) :
    c.live key now = true := by
  unfold Cache.live
  rw [hm]
  unfold Item.expired
  by_cases hp : 0 < it.ttl
  · have := h hp
    have h1 : ¬ it.ttl ≤ 0 := by omega
    have h2 : ¬ it.expireAt < now := by omega
    simp [h1, h2]
  · have h1 : it.ttl ≤ 0 := by omega
    simp [h1]

theorem not_live_of_item (c : Cache) (key : String) (now : Int) (it : Item)
    (hm : mapGet c.items key = some it) (hp : 0 < it.ttl) (h : it.expireAt < now) :
    c.live key now = false := by
  unfold Cache.live
  rw [hm]
  unfold Item.expired
  have h1 : ¬ it.ttl ≤ 0 := by omega
  simp [h1, h]

theorem live_fresh (c : Cache) (key : String) (now : Int) (h : c.items = []) :
    c.live key now = false := by
  unfold Cache.live
  rw [h]
  rfl

/-! ## `checkLimits` -/

/-- Both keys free: both are set and the claim is granted. -/
theorem checkLimits_of_free (ml : MultiChainLimiter) (limiter : Cache) (r : Request)
    (address : String) (k : Ticks)
    (ha : limiter.live address k.getAddress = false)
    (hi : limiter.live (getClientIP r ml.proxyCount) k.getIP = false) :
    ml.checkLimits limiter r address k =
      ((limiter.Set address k.setAddress).Set (getClientIP r ml.proxyCount) k.setIP, none) := by
  unfold MultiChainLimiter.checkLimits
  simp only [Get_miss limiter address k.getAddress ha,
    Get_miss limiter (getClientIP r ml.proxyCount) k.getIP hi]

/-- A live address key: the claim is denied with the address message. -/
theorem checkLimits_of_live_address (ml : MultiChainLimiter) (limiter : Cache) (r : Request)
    (address : String) (k : Ticks) (ha : limiter.live address k.getAddress = true) :
    ml.checkLimits limiter r address k =
      ((limiter.Get address k.getAddress).1,
        some ("address " ++ address ++ " is requesting too frequently")) := by
  have h := Get_hit limiter address k.getAddress ha
  unfold MultiChainLimiter.checkLimits
  cases hg : limiter.Get address k.getAddress with
  | mk c1 b =>
    rw [hg] at h
    simp only at h
    subst h
    rfl

/-- A free address key and a live client key: denied with the IP message. -/
theorem checkLimits_of_live_ip (ml : MultiChainLimiter) (limiter : Cache) (r : Request)
    (address : String) (k : Ticks) (ha : limiter.live address k.getAddress = false)
    (hi : limiter.live (getClientIP r ml.proxyCount) k.getIP = true) :
    ml.checkLimits limiter r address k =
      ((limiter.Get (getClientIP r ml.proxyCount) k.getIP).1,
        some ("IP " ++ getClientIP r ml.proxyCount ++ " is requesting too frequently")) := by
  have h := Get_hit limiter (getClientIP r ml.proxyCount) k.getIP hi
  unfold MultiChainLimiter.checkLimits
  simp only [Get_miss limiter address k.getAddress ha]
  cases hg : limiter.Get (getClientIP r ml.proxyCount) k.getIP with
  | mk c1 b =>
    rw [hg] at h
    simp only at h
    subst h
    rfl

/-- After both keys are set, the first key set is live until its time to live
has run out (for ever when the time to live is not positive). -/
theorem live_after_sets (c : Cache) (a ip : String) (t3 t4 now : Int)
    (hclock : t3 ≤ t4) (hnow : now ≤ t3 + c.ttl) :
    ((c.Set a t3).Set ip t4).live a now = true := by
  by_cases hne : a = ip
  · subst hne
    obtain ⟨e, hm, he⟩ := Set_self (c.Set a t3) a t4
    rw [Set_ttl] at hm he
    refine live_of_item _ _ _ _ hm ?_
    intro hp
    have := he hp
    simp only at this ⊢
    omega
  · obtain ⟨e, hm, he⟩ := Set_self c a t3
    have hm2 := Set_other (c.Set a t3) ip a t4 hne
    rw [hm] at hm2
    refine live_of_item _ _ _ _ hm2 ?_
    intro hp
    have := he hp
    simp only at this ⊢
    omega

/-- On a limiter with no entries, the first `checkLimits` for an address is
granted, and a second one for the same address, made before the limiter's
time to live has run out since the address was set, is denied with the error
naming the address. -/
theorem checkLimits_second_denied_within_ttl (ml : MultiChainLimiter) (limiter : Cache)
    (r1 r2 : Request) (a : String) (k1 k2 : Ticks)
    (hfresh : limiter.items = [])
    (hclock : k1.setAddress ≤ k1.setIP)
    (hbefore : k2.getAddress ≤ k1.setAddress + limiter.ttl) :
    (ml.checkLimits limiter r1 a k1).2 = none ∧
    (ml.checkLimits (ml.checkLimits limiter r1 a k1).1 r2 a k2).2 =
      some ("address " ++ a ++ " is requesting too frequently") := by
  have h1 := checkLimits_of_free ml limiter r1 a k1
    (live_fresh limiter a k1.getAddress hfresh)
    (live_fresh limiter (getClientIP r1 ml.proxyCount) k1.getIP hfresh)
  rw [h1]
  refine ⟨rfl, ?_⟩
  have hl := live_after_sets limiter a (getClientIP r1 ml.proxyCount) k1.setAddress k1.setIP
    k2.getAddress hclock hbefore
  rw [checkLimits_of_live_address ml _ r2 a k2 hl]

/-- A duration that fits 64 bits is not changed by the wrap-around. -/
theorem wrapInt64_of_fits (x : Int) (h1 : -9223372036854775808 ≤ x)
    (h2 : x < 9223372036854775808) : wrapInt64 x = x := by
  unfold wrapInt64
  norm_num
  omega

/-- The time to live of a pool's limiter is the pool's interval when the
interval is at most 153722867 minutes either way. -/
theorem limiter_ttl_of_fits (Interval : Int) (h1 : -153722867 ≤ Interval)
    (h2 : Interval ≤ 153722867) :
    (NewMultiChainServer.limiter Interval).ttl = Interval * Minute := by
  unfold NewMultiChainServer.limiter Cache.SetTTL
  simp only
  apply wrapInt64_of_fits <;> unfold Minute <;> omega

/-- C1, as stated, fails for a pool whose interval does not fit a 64-bit
duration.  With an interval of 307445735 minutes the product with
`time.Minute` wraps around and the limiter's time to live is 26290448384 ns;
`addrA`, granted at instant 0, is granted again 30 s later, long before the
pool's interval has elapsed. -/
theorem first_grants_second_denies_counterexample :
    longLimiter.items = [] ∧
    longLimiter.ttl = 26290448384 ∧
    (30000000000 : Int) < 307445735 * Minute ∧
    (sampleLimiter.checkLimits longLimiter clientOne addrA (Ticks.at 0)).2 = none ∧
    (sampleLimiter.checkLimits
        (sampleLimiter.checkLimits longLimiter clientOne addrA (Ticks.at 0)).1
        clientTwo addrA (Ticks.at 30000000000)).2 = none := by
  decide

/-- C1, amended.  For a pool whose interval is at most 153722867 minutes
either way, so that the limiter's time to live is the interval: on the
limiter with no entries, the first `checkLimits` for an address (well formed
or not) is granted (`nil`), and a second `checkLimits` for the same address,
made before the pool's interval has elapsed since the address was set, is
denied with the error naming the address, whatever the two client identities
are. -/
theorem fresh_pool_first_grants_second_denies (ml : MultiChainLimiter) (Interval : Int)
    (limiter : Cache) (r1 r2 : Request) (a : String) (k1 k2 : Ticks)
    (hfresh : limiter.items = [])
    (hpool : limiter.ttl = (NewMultiChainServer.limiter Interval).ttl)
    (hfits : -153722867 ≤ Interval ∧ Interval ≤ 153722867)
    (hclock : k1.setAddress ≤ k1.setIP)
    (hbefore : k2.getAddress ≤ k1.setAddress + Interval * Minute) :
    (ml.checkLimits limiter r1 a k1).2 = none ∧
    (ml.checkLimits (ml.checkLimits limiter r1 a k1).1 r2 a k2).2 =
      some ("address " ++ a ++ " is requesting too frequently") := by
  rw [limiter_ttl_of_fits Interval hfits.1 hfits.2] at hpool
  exact checkLimits_second_denied_within_ttl ml limiter r1 r2 a k1 k2 hfresh hclock
    (by rw [hpool]; exact hbefore)

/-- C1, amended, at a concrete input: `addrA` claimed by one client at instant
0 on the one-minute limiter and by another client one second later. -/
theorem fresh_pool_first_grants_second_denies_witness :
    (sampleLimiter.checkLimits minuteLimiter clientOne addrA (Ticks.at 0)).2 = none ∧
    (sampleLimiter.checkLimits
        (sampleLimiter.checkLimits minuteLimiter clientOne addrA (Ticks.at 0)).1
        clientTwo addrA (Ticks.at 1000000000)).2 =
      some ("address " ++ addrA ++ " is requesting too frequently") :=
  fresh_pool_first_grants_second_denies sampleLimiter 1 minuteLimiter clientOne clientTwo addrA
    (Ticks.at 0) (Ticks.at 1000000000) rfl rfl (by decide) (by decide) (by decide)

/-! ## Denied claims -/

theorem mapSet_keys {β : Type} (m : List (String × β)) (key : String) (v w : β)
    (h : mapGet m key = some w) : (mapSet m key v).map Prod.fst = m.map Prod.fst := by
  induction m with
  | nil => simp [mapGet] at h
  | cons p rest ih =>
    obtain ⟨k, u⟩ := p
    by_cases hk : k = key
    · simp [mapSet, hk]
    · simp only [mapGet, hk, if_false] at h
      simp [mapSet, hk, ih h]

theorem getItem_keys (c : Cache) (key : String) (now : Int) :
    (c.getItem key now).1.items.map Prod.fst = c.items.map Prod.fst := by
  unfold Cache.getItem
  cases hm : mapGet c.items key with
  | none => rfl
  | some it =>
    simp only
    split
    · rfl
    · split
      · rfl
      · exact mapSet_keys _ _ _ _ hm

theorem getItem_skip (c : Cache) (key : String) (now : Int) (h : c.skipTTLExtension = true) :
    (c.getItem key now).1 = c := by
  unfold Cache.getItem
  cases hm : mapGet c.items key with
  | none => rfl
  | some it =>
    simp only [h, Bool.true_or, if_true]
    split <;> rfl

theorem Get_fst (c : Cache) (key : String) (now : Int) :
    (c.Get key now).1 = (c.getItem key now).1 := by
  unfold Cache.Get
  split <;> simp_all

/-- A denied `checkLimits` adds no key to the limiter and leaves its time to
live alone: the keys stored afterwards are the keys stored before. -/
theorem checkLimits_denied_keys (ml : MultiChainLimiter) (limiter : Cache) (r : Request)
    (address : String) (k : Ticks) (h : (ml.checkLimits limiter r address k).2 ≠ none) :
    (ml.checkLimits limiter r address k).1.items.map Prod.fst = limiter.items.map Prod.fst ∧
    (ml.checkLimits limiter r address k).1.ttl = limiter.ttl := by
  cases ha : limiter.live address k.getAddress with
  | true =>
    rw [checkLimits_of_live_address ml limiter r address k ha]
    simp only [Get_fst]
    exact ⟨getItem_keys _ _ _, getItem_ttl _ _ _⟩
  | false =>
    cases hi : limiter.live (getClientIP r ml.proxyCount) k.getIP with
    | true =>
      rw [checkLimits_of_live_ip ml limiter r address k ha hi]
      simp only [Get_fst]
      exact ⟨getItem_keys _ _ _, getItem_ttl _ _ _⟩
    | false =>
      rw [checkLimits_of_free ml limiter r address k ha hi] at h
      exact absurd rfl h

/-- Had the cache been created with extension on hit switched off, a denied
`checkLimits` would leave the limiter exactly as it was. -/
theorem checkLimits_denied_unchanged_of_skip (ml : MultiChainLimiter) (limiter : Cache)
    (r : Request) (address : String) (k : Ticks) (hskip : limiter.skipTTLExtension = true)
    (h : (ml.checkLimits limiter r address k).2 ≠ none) :
    (ml.checkLimits limiter r address k).1 = limiter := by
  cases ha : limiter.live address k.getAddress with
  | true =>
    rw [checkLimits_of_live_address ml limiter r address k ha]
    simp only [Get_fst]
    exact getItem_skip _ _ _ hskip
  | false =>
    cases hi : limiter.live (getClientIP r ml.proxyCount) k.getIP with
    | true =>
      rw [checkLimits_of_live_ip ml limiter r address k ha hi]
      simp only [Get_fst]
      exact getItem_skip _ _ _ hskip
    | false =>
      rw [checkLimits_of_free ml limiter r address k ha hi] at h
      exact absurd rfl h

/-- C2, the code at the failing input.  On the one-minute limiter `addrA` is
granted at instant 0, so its entry expires at 60 s.  A second claim for
`addrA` at 30 s is denied, and the denial itself moves the expiry of the
entry it collided with to 90 s: the limiter is not what it was before. -/
theorem checkLimits_denied_extends_expiry :
    (sampleLimiter.checkLimits minuteLimiter clientOne addrA (Ticks.at 0)).2 = none ∧
    mapGet (sampleLimiter.checkLimits minuteLimiter clientOne addrA (Ticks.at 0)).1.items addrA =
      some { ttl := 60000000000, expireAt := 60000000000 } ∧
    (sampleLimiter.checkLimits
        (sampleLimiter.checkLimits minuteLimiter clientOne addrA (Ticks.at 0)).1
        clientTwo addrA (Ticks.at 30000000000)).2 =
      some ("address " ++ addrA ++ " is requesting too frequently") ∧
    mapGet (sampleLimiter.checkLimits
        (sampleLimiter.checkLimits minuteLimiter clientOne addrA (Ticks.at 0)).1
        clientTwo addrA (Ticks.at 30000000000)).1.items addrA =
      some { ttl := 60000000000, expireAt := 90000000000 } ∧
    (sampleLimiter.checkLimits
        (sampleLimiter.checkLimits minuteLimiter clientOne addrA (Ticks.at 0)).1
        clientTwo addrA (Ticks.at 30000000000)).1 ≠
      (sampleLimiter.checkLimits minuteLimiter clientOne addrA (Ticks.at 0)).1 := by
  decide

/-! ## Expiry of granted entries -/

/-- A granted `checkLimits` found both keys free. -/
theorem checkLimits_granted_free (ml : MultiChainLimiter) (limiter : Cache) (r : Request)
    (address : String) (k : Ticks) (h : (ml.checkLimits limiter r address k).2 = none) :
    limiter.live address k.getAddress = false ∧
    limiter.live (getClientIP r ml.proxyCount) k.getIP = false := by
  cases ha : limiter.live address k.getAddress with
  | true =>
    rw [checkLimits_of_live_address ml limiter r address k ha] at h
    cases h
  | false =>
    cases hi : limiter.live (getClientIP r ml.proxyCount) k.getIP with
    | true =>
      rw [checkLimits_of_live_ip ml limiter r address k ha hi] at h
      cases h
    | false => exact ⟨rfl, rfl⟩

/-- With a positive time to live, both keys set by a grant have expired once
the time to live has run out after the second `Set`. -/
theorem not_live_after_sets (c : Cache) (a ip key : String) (t3 t4 now : Int)
    (httl : 0 < c.ttl) (hclock : t3 ≤ t4) (hnow : t4 + c.ttl < now)
    (hkey : key = a ∨ key = ip) :
    ((c.Set a t3).Set ip t4).live key now = false := by
  by_cases hip : key = ip
  · subst hip
    obtain ⟨e, hm, he⟩ := Set_self (c.Set a t3) key t4
    rw [Set_ttl] at hm he
    refine not_live_of_item _ _ _ _ hm httl ?_
    have := he httl
    simp only
    omega
  · have hka : key = a := by
      rcases hkey with h | h
      · exact h
      · exact absurd h hip
    subst hka
    obtain ⟨e, hm, he⟩ := Set_self c key t3
    have hm2 := Set_other (c.Set key t3) ip key t4 hip
    rw [hm] at hm2
    refine not_live_of_item _ _ _ _ hm2 httl ?_
    have := he httl
    simp only
    omega

/-- C4, as stated, fails on the one-minute limiter in two ways.  First, with
nothing in between: `addrA`, granted at instant 0, is still denied at exactly
60 s, because an entry expires only when its expiry instant lies strictly
before the clock reading.  Second, a denied attempt at 30 s moves the expiry
to 90 s, so the claim made after more than one minute (at 60 s + 1 ns) by a
client never seen before is denied too. -/
theorem regrant_at_interval_counterexample :
    (sampleLimiter.checkLimits minuteLimiter clientOne addrA (Ticks.at 0)).2 = none ∧
    (sampleLimiter.checkLimits
        (sampleLimiter.checkLimits minuteLimiter clientOne addrA (Ticks.at 0)).1
        clientTwo addrA (Ticks.at 60000000000)).2 =
      some ("address " ++ addrA ++ " is requesting too frequently") ∧
    (sampleLimiter.checkLimits
        (sampleLimiter.checkLimits
          (sampleLimiter.checkLimits minuteLimiter clientOne addrA (Ticks.at 0)).1
          clientTwo addrA (Ticks.at 30000000000)).1
        clientThree addrA (Ticks.at 60000000001)).2 =
      some ("address " ++ addrA ++ " is requesting too frequently") := by
  decide

/-- A `checkLimits` whose address and client identity both differ from `key`
leaves the entry of `key` as it was. -/
theorem checkLimits_other (ml : MultiChainLimiter) (limiter : Cache) (r : Request)
    (address key : String) (k : Ticks) (ha : key ≠ address)
    (hi : key ≠ getClientIP r ml.proxyCount) :
    mapGet (ml.checkLimits limiter r address k).1.items key = mapGet limiter.items key := by
  cases hla : limiter.live address k.getAddress with
  | true =>
    rw [checkLimits_of_live_address ml limiter r address k hla]
    simp only [Get_fst]
    exact getItem_other _ _ _ _ ha
  | false =>
    cases hli : limiter.live (getClientIP r ml.proxyCount) k.getIP with
    | true =>
      rw [checkLimits_of_live_ip ml limiter r address k hla hli]
      simp only [Get_fst]
      exact getItem_other _ _ _ _ hi
    | false =>
      rw [checkLimits_of_free ml limiter r address k hla hli]
      simp only
      rw [Set_other _ _ _ _ hi, Set_other _ _ _ _ ha]

theorem checkAll_other (ml : MultiChainLimiter) (key : String) (xs : List Arrival) :
    ∀ c : Cache,
      (∀ x ∈ xs, key ≠ x.req.Address ∧ key ≠ getClientIP x.r ml.proxyCount) →
      mapGet (checkAll ml c xs).items key = mapGet c.items key := by
  induction xs with
  | nil => intro c _; rfl
  | cons x rest ih =>
    intro c h
    have hx := h x (List.mem_cons_self _ _)
    unfold checkAll
    rw [ih _ (fun y hy => h y (List.mem_cons_of_mem _ hy))]
    exact checkLimits_other ml c x.r x.req.Address key x.k hx.1 hx.2

theorem live_congr (c1 c2 : Cache) (key : String) (now : Int)
    (h : mapGet c1.items key = mapGet c2.items key) : c1.live key now = c2.live key now := by
  unfold Cache.live
  rw [h]

/-- C4, amended.  On a limiter with a positive time to live, take a granted
`checkLimits` whose last cache write was at instant `k1.setIP`, followed by
any sequence of further `checkLimits` calls (granted or denied) none of which
has one of the two granted keys as its address or its client identity.  A
`checkLimits` made after that, strictly later than `k1.setIP + ttl`, is
granted when each of its two keys is either one of the two granted keys or
free. -/
theorem checkLimits_regrant_after_interval (ml : MultiChainLimiter) (limiter : Cache)
    (r1 r2 : Request) (a1 a2 : String) (k1 k2 : Ticks) (between : List Arrival)
    (httl : 0 < limiter.ttl)
    (hgrant : (ml.checkLimits limiter r1 a1 k1).2 = none)
    (hclock1 : k1.setAddress ≤ k1.setIP)
    (hbetween : ∀ x ∈ between,
      (a1 ≠ x.req.Address ∧ a1 ≠ getClientIP x.r ml.proxyCount) ∧
      (getClientIP r1 ml.proxyCount ≠ x.req.Address ∧
        getClientIP r1 ml.proxyCount ≠ getClientIP x.r ml.proxyCount))
    (hafter : k1.setIP + limiter.ttl < k2.getAddress)
    (hclock2 : k2.getAddress ≤ k2.getIP)
    (ha : a2 = a1 ∨ a2 = getClientIP r1 ml.proxyCount ∨
      (checkAll ml (ml.checkLimits limiter r1 a1 k1).1 between).live a2 k2.getAddress = false)
    (hi : getClientIP r2 ml.proxyCount = a1 ∨
      getClientIP r2 ml.proxyCount = getClientIP r1 ml.proxyCount ∨
      (checkAll ml (ml.checkLimits limiter r1 a1 k1).1 between).live
        (getClientIP r2 ml.proxyCount) k2.getIP = false) :
    (ml.checkLimits (checkAll ml (ml.checkLimits limiter r1 a1 k1).1 between) r2 a2 k2).2 =
      none := by
  obtain ⟨hf1, hf2⟩ := checkLimits_granted_free ml limiter r1 a1 k1 hgrant
  have hS := checkLimits_of_free ml limiter r1 a1 k1 hf1 hf2
  have hexp : ∀ key now, (key = a1 ∨ key = getClientIP r1 ml.proxyCount) →
      k1.setIP + limiter.ttl < now →
      (checkAll ml (ml.checkLimits limiter r1 a1 k1).1 between).live key now = false := by
    intro key now hkey hnow
    have hsame : mapGet (checkAll ml (ml.checkLimits limiter r1 a1 k1).1 between).items key =
        mapGet (ml.checkLimits limiter r1 a1 k1).1.items key := by
      refine checkAll_other ml key between _ ?_
      intro x hx
      rcases hkey with h | h
      · rw [h]; exact (hbetween x hx).1
      · rw [h]; exact (hbetween x hx).2
    rw [live_congr _ _ key now hsame, hS]
    exact not_live_after_sets limiter _ _ _ _ _ _ httl hclock1 hnow hkey
  have hla : (checkAll ml (ml.checkLimits limiter r1 a1 k1).1 between).live
      a2 k2.getAddress = false := by
    rcases ha with h | h | h
    · exact hexp _ _ (Or.inl h) hafter
    · exact hexp _ _ (Or.inr h) hafter
    · exact h
  have hli : (checkAll ml (ml.checkLimits limiter r1 a1 k1).1 between).live
      (getClientIP r2 ml.proxyCount) k2.getIP = false := by
    rcases hi with h | h | h
    · exact hexp _ _ (Or.inl h) (by omega)
    · exact hexp _ _ (Or.inr h) (by omega)
    · exact h
  rw [checkLimits_of_free ml _ r2 a2 k2 hla hli]

/-- C4, amended, at a concrete input: `addrA`, granted to a first client at
instant 0 on the one-minute limiter, is granted to the same client again at
60 s + 1 ns, a grant and a denial for `addrB` by another client lying in
between. -/
theorem checkLimits_regrant_after_interval_witness :
    (sampleLimiter.checkLimits minuteLimiter clientOne addrA (Ticks.at 0)).2 = none ∧
    (sampleLimiter.checkLimits
        (checkAll sampleLimiter
          (sampleLimiter.checkLimits minuteLimiter clientOne addrA (Ticks.at 0)).1
          betweenArrivals)
        clientOne addrA (Ticks.at 60000000001)).2 = none :=
  ⟨by decide,
   checkLimits_regrant_after_interval sampleLimiter minuteLimiter clientOne clientOne addrA addrA
    (Ticks.at 0) (Ticks.at 60000000001) betweenArrivals (by decide) (by decide) (by decide)
    (by decide) (by decide) (by decide) (Or.inl rfl) (Or.inr (Or.inl rfl))⟩

/-! ## One key space -/

theorem live_of_none (c : Cache) (key : String) (now : Int) (h : mapGet c.items key = none) :
    c.live key now = false := by
  unfold Cache.live
  rw [h]

/-- C6, as stated, fails: address and client identity are keys of one and the
same cache.  After `addrA` is granted to a client whose identity (its
`X-Real-IP` header) is the string `addrB`, a claim for the different address
`addrB` by a different client is denied. -/
theorem key_spaces_counterexample :
    addrA ≠ addrB ∧
    getClientIP clientNamedB sampleLimiter.proxyCount = addrB ∧
    getClientIP clientNamedB sampleLimiter.proxyCount ≠
      getClientIP clientTwo sampleLimiter.proxyCount ∧
    (sampleLimiter.checkLimits minuteLimiter clientNamedB addrA (Ticks.at 0)).2 = none ∧
    (sampleLimiter.checkLimits
        (sampleLimiter.checkLimits minuteLimiter clientNamedB addrA (Ticks.at 0)).1
        clientTwo addrB (Ticks.at 5)).2 =
      some ("address " ++ addrB ++ " is requesting too frequently") := by
  decide

/-- On a limiter with no entries, after a granted claim `(a1, c1)`, a claim
`(a2, c2)` is granted whenever `a2` differs from both `a1` and `c1`, and `c2`
differs from both `a1` and `c1`. -/
theorem checkLimits_disjoint_keys_granted (ml : MultiChainLimiter) (limiter : Cache)
    (r1 r2 : Request) (a1 a2 : String) (k1 k2 : Ticks)
    (hfresh : limiter.items = [])
    (haa : a2 ≠ a1) (hac : a2 ≠ getClientIP r1 ml.proxyCount)
    (hca : getClientIP r2 ml.proxyCount ≠ a1)
    (hcc : getClientIP r2 ml.proxyCount ≠ getClientIP r1 ml.proxyCount) :
    (ml.checkLimits limiter r1 a1 k1).2 = none ∧
    (ml.checkLimits (ml.checkLimits limiter r1 a1 k1).1 r2 a2 k2).2 = none := by
  have h1 := checkLimits_of_free ml limiter r1 a1 k1
    (live_fresh limiter a1 k1.getAddress hfresh)
    (live_fresh limiter (getClientIP r1 ml.proxyCount) k1.getIP hfresh)
  rw [h1]
  refine ⟨rfl, ?_⟩
  have hnone : ∀ key, key ≠ a1 → key ≠ getClientIP r1 ml.proxyCount →
      mapGet ((limiter.Set a1 k1.setAddress).Set (getClientIP r1 ml.proxyCount) k1.setIP).items
        key = none := by
    intro key h1 h2
    rw [Set_other _ _ _ _ h2, Set_other _ _ _ _ h1, hfresh]
    rfl
  rw [checkLimits_of_free ml _ r2 a2 k2 (live_of_none _ _ _ (hnone a2 haa hac))
    (live_of_none _ _ _ (hnone _ hca hcc))]

/-- After both keys are set, each of them is live until the time to live has
run out since the first was set (for ever when the time to live is not
positive). -/
theorem live_after_sets_key (c : Cache) (a ip key : String) (t3 t4 now : Int)
    (hkey : key = a ∨ key = ip) (hclock : t3 ≤ t4)
    (hnow : c.ttl ≤ 0 ∨ now ≤ t3 + c.ttl) :
    ((c.Set a t3).Set ip t4).live key now = true := by
  by_cases hip : key = ip
  · subst hip
    obtain ⟨e, hm, he⟩ := Set_self (c.Set a t3) key t4
    rw [Set_ttl] at hm he
    refine live_of_item _ _ _ _ hm ?_
    intro hp
    have := he hp
    simp only at this hp ⊢
    omega
  · have hka : key = a := by
      rcases hkey with h | h
      · exact h
      · exact absurd h hip
    subst hka
    obtain ⟨e, hm, he⟩ := Set_self c key t3
    have hm2 := Set_other (c.Set key t3) ip key t4 hip
    rw [hm] at hm2
    refine live_of_item _ _ _ _ hm2 ?_
    intro hp
    have := he hp
    simp only at this hp ⊢
    omega

/-- C6, amended.  Address and client identity are keys of one and the same
cache.  On a limiter with no entries, after a granted claim `(a1, c1)`:
a claim `(a2, c2)` is granted when `a2` and `c2` both differ from `a1` and
from `c1`; and a claim `(a2, c2)` in which `a2` or `c2` is equal to `a1` or to
`c1` (in particular when the client identity `c1` is the address `a2`), made
before the time to live has run out since `a1` was set, is denied, with the
message naming the address `a2` when `a2` is `a1` or `c1` and the message
naming the client identity `c2` otherwise. -/
theorem checkLimits_one_key_space (ml : MultiChainLimiter) (limiter : Cache)
    (r1 r2 : Request) (a1 a2 : String) (k1 k2 : Ticks)
    (hfresh : limiter.items = []) :
    (ml.checkLimits limiter r1 a1 k1).2 = none ∧
    ((a2 ≠ a1 ∧ a2 ≠ getClientIP r1 ml.proxyCount ∧
        getClientIP r2 ml.proxyCount ≠ a1 ∧
        getClientIP r2 ml.proxyCount ≠ getClientIP r1 ml.proxyCount) →
      (ml.checkLimits (ml.checkLimits limiter r1 a1 k1).1 r2 a2 k2).2 = none) ∧
    ((a2 = a1 ∨ a2 = getClientIP r1 ml.proxyCount ∨
        getClientIP r2 ml.proxyCount = a1 ∨
        getClientIP r2 ml.proxyCount = getClientIP r1 ml.proxyCount) →
      k1.setAddress ≤ k1.setIP →
      (limiter.ttl ≤ 0 ∨ (k2.getAddress ≤ k1.setAddress + limiter.ttl ∧
        k2.getIP ≤ k1.setAddress + limiter.ttl)) →
      (ml.checkLimits (ml.checkLimits limiter r1 a1 k1).1 r2 a2 k2).2 =
        some (if a2 = a1 ∨ a2 = getClientIP r1 ml.proxyCount then
            "address " ++ a2 ++ " is requesting too frequently"
          else "IP " ++ getClientIP r2 ml.proxyCount ++ " is requesting too frequently")) := by
  have hdis := checkLimits_disjoint_keys_granted ml limiter r1 r2 a1 a2 k1 k2 hfresh
  have h1 := checkLimits_of_free ml limiter r1 a1 k1
    (live_fresh limiter a1 k1.getAddress hfresh)
    (live_fresh limiter (getClientIP r1 ml.proxyCount) k1.getIP hfresh)
  refine ⟨by rw [h1], fun ⟨haa, hac, hca, hcc⟩ => (hdis haa hac hca hcc).2, ?_⟩
  intro hshared hclock hnow
  rw [h1]
  simp only
  by_cases ha : a2 = a1 ∨ a2 = getClientIP r1 ml.proxyCount
  · have hl := live_after_sets_key limiter a1 (getClientIP r1 ml.proxyCount) a2
      k1.setAddress k1.setIP k2.getAddress ha hclock
      (by rcases hnow with h | h
          · exact Or.inl h
          · exact Or.inr h.1)
    rw [checkLimits_of_live_address ml _ r2 a2 k2 hl, if_pos ha]
  · have hc : getClientIP r2 ml.proxyCount = a1 ∨
        getClientIP r2 ml.proxyCount = getClientIP r1 ml.proxyCount := by
      rcases hshared with h | h | h | h
      · exact absurd (Or.inl h) ha
      · exact absurd (Or.inr h) ha
      · exact Or.inl h
      · exact Or.inr h
    have hna1 : a2 ≠ a1 := fun e => ha (Or.inl e)
    have hnc1 : a2 ≠ getClientIP r1 ml.proxyCount := fun e => ha (Or.inr e)
    have hfree : ((limiter.Set a1 k1.setAddress).Set (getClientIP r1 ml.proxyCount)
        k1.setIP).live a2 k2.getAddress = false := by
      refine live_of_none _ _ _ ?_
      rw [Set_other _ _ _ _ hnc1, Set_other _ _ _ _ hna1, hfresh]
      rfl
    have hl := live_after_sets_key limiter a1 (getClientIP r1 ml.proxyCount)
      (getClientIP r2 ml.proxyCount) k1.setAddress k1.setIP k2.getIP hc hclock
      (by rcases hnow with h | h
          · exact Or.inl h
          · exact Or.inr h.2)
    rw [checkLimits_of_live_ip ml _ r2 a2 k2 hfree hl, if_neg ha]

/-- C6, amended, at concrete inputs on the one-minute limiter: after `addrA`
for a client whose identity is the string `addrB`, the claim for `addrB` by
another client 5 ns later is denied; after `addrA` for a first client, the
claim for `addrB` by a second client is granted. -/
theorem checkLimits_one_key_space_witness :
    (sampleLimiter.checkLimits
        (sampleLimiter.checkLimits minuteLimiter clientNamedB addrA (Ticks.at 0)).1
        clientTwo addrB (Ticks.at 5)).2 =
      some ("address " ++ addrB ++ " is requesting too frequently") ∧
    (sampleLimiter.checkLimits
        (sampleLimiter.checkLimits minuteLimiter clientOne addrA (Ticks.at 0)).1
        clientTwo addrB (Ticks.at 5)).2 = none :=
  ⟨(checkLimits_one_key_space sampleLimiter minuteLimiter clientNamedB clientTwo addrA addrB
      (Ticks.at 0) (Ticks.at 5) rfl).2.2 (Or.inr (Or.inl (by decide))) (by decide)
      (Or.inr (by decide)),
   (checkLimits_one_key_space sampleLimiter minuteLimiter clientOne clientTwo addrA addrB
      (Ticks.at 0) (Ticks.at 5) rfl).2.1 (by decide)⟩

/-! ## The limiter middleware and the `/api/claim` chain -/

/-- `ServeHTTP` on a decoded request with a valid address and a known network
is `checkLimits` on that network's cache. -/
theorem ServeHTTP_of_valid (ml : MultiChainLimiter) (r : Request)
    (req : multiChainClaimRequest) (k : Ticks) (limiter : Cache)
    (hv : isValidAddress req.Address = true)
    (hl : mapGet ml.limiters req.Network = some limiter) :
    ml.ServeHTTP r (some req) k =
      (mapSet ml.limiters req.Network (ml.checkLimits limiter r req.Address k).1,
        match (ml.checkLimits limiter r req.Address k).2 with
        | some err => .rendered { Message := err, Status := 429 }
        | none => .next) := by
  unfold MultiChainLimiter.ServeHTTP
  simp only [hv, hl, Bool.not_true, Bool.false_eq_true, if_false]
  cases hc : ml.checkLimits limiter r req.Address k with
  | mk c e => cases e <;> rfl

/-- The limiters after the chain are the limiters after the limiter
middleware: the handlers behind it do not touch them. -/
theorem claim_limiters (ml : MultiChainLimiter) (d : Downstream) (r : Request)
    (decoded : Option multiChainClaimRequest) (k : Ticks) :
    (setupRouter.claim ml d r decoded k).1 = (ml.ServeHTTP r decoded k).1 := by
  unfold setupRouter.claim
  cases hs : ml.ServeHTTP r decoded k with
  | mk ls o =>
    cases o with
    | rendered resp => rfl
    | next => cases d.captcha r <;> rfl

/-- C3, as stated, fails: the limiter runs before the captcha.  A first claim
for `addrA` on `sepolia` is rejected by the captcha, yet the limiter of
`sepolia` has gone from no entries to holding the address and the client
identity, and the same claim repeated one second later is denied by the
limiter. -/
theorem verification_before_admission_counterexample :
    rejectingDownstream.captcha clientOne ≠ none ∧
    mapGet sampleLimiter.limiters "sepolia" = some minuteLimiter ∧
    minuteLimiter.items = [] ∧
    (setupRouter.claim sampleLimiter rejectingDownstream clientOne
        (some { Network := "sepolia", Address := addrA }) (Ticks.at 0)).2 =
      .byCaptcha { Message := "Captcha verification failed, please try again", Status := 429 } ∧
    (mapGet (setupRouter.claim sampleLimiter rejectingDownstream clientOne
        (some { Network := "sepolia", Address := addrA }) (Ticks.at 0)).1 "sepolia").map
        (fun c => c.items.map Prod.fst) = some [addrA, "203.0.113.7"] ∧
    (setupRouter.claim
        (NewMultiChainLimiter (setupRouter.claim sampleLimiter rejectingDownstream clientOne
          (some { Network := "sepolia", Address := addrA }) (Ticks.at 0)).1 0)
        rejectingDownstream clientOne
        (some { Network := "sepolia", Address := addrA }) (Ticks.at 1000000000)).2 =
      .byLimiter { Message := "address " ++ addrA ++ " is requesting too frequently",
                   Status := 429 } := by
  decide

/-- C3, amended.  On `/api/claim` the limiter runs first and the captcha is
consulted only for a request the limiter has admitted.  So when the captcha
rejects a request: either the limiter had already answered it (the captcha
was not reached and the response is the limiter's), or the request was
decoded, valid and admitted, the response is the captcha's, the claim
handler is not run, and the cache of the request's network now holds the
address and the client identity, set by the limiter before the captcha was
asked.  In both cases the limiters are exactly as the limiter middleware
left them. -/
theorem captcha_rejects_after_admission (ml : MultiChainLimiter) (d : Downstream)
    (r : Request) (decoded : Option multiChainClaimRequest) (k : Ticks) (resp : Response)
    (hreject : d.captcha r = some resp) :
    (setupRouter.claim ml d r decoded k).1 = (ml.ServeHTTP r decoded k).1 ∧
    ((∃ own, (ml.ServeHTTP r decoded k).2 = .rendered own ∧
        (setupRouter.claim ml d r decoded k).2 = .byLimiter own) ∨
     (∃ req limiter, decoded = some req ∧ isValidAddress req.Address = true ∧
        mapGet ml.limiters req.Network = some limiter ∧
        limiter.live req.Address k.getAddress = false ∧
        limiter.live (getClientIP r ml.proxyCount) k.getIP = false ∧
        (setupRouter.claim ml d r decoded k).2 = .byCaptcha resp ∧
        mapGet (setupRouter.claim ml d r decoded k).1 req.Network =
          some ((limiter.Set req.Address k.setAddress).Set
            (getClientIP r ml.proxyCount) k.setIP))) := by
  refine ⟨claim_limiters ml d r decoded k, ?_⟩
  cases decoded with
  | none => exact Or.inl ⟨_, rfl, rfl⟩
  | some req =>
    cases hv : isValidAddress req.Address with
    | false =>
      refine Or.inl ⟨{ Message := "invalid address", Status := 400 }, ?_, ?_⟩
      · simp [MultiChainLimiter.ServeHTTP, hv]
      · simp [setupRouter.claim, MultiChainLimiter.ServeHTTP, hv]
    | true =>
      cases hl : mapGet ml.limiters req.Network with
      | none =>
        refine Or.inl ⟨{ Message := "unsupported network", Status := 400 }, ?_, ?_⟩
        · simp [MultiChainLimiter.ServeHTTP, hv, hl]
        · simp [setupRouter.claim, MultiChainLimiter.ServeHTTP, hv, hl]
      | some limiter =>
        have hS := ServeHTTP_of_valid ml r req k limiter hv hl
        cases he : (ml.checkLimits limiter r req.Address k).2 with
        | some err =>
          rw [he] at hS
          refine Or.inl ⟨{ Message := err, Status := 429 }, ?_, ?_⟩
          · rw [hS]
          · simp only [setupRouter.claim, hS]
        | none =>
          rw [he] at hS
          obtain ⟨hf1, hf2⟩ := checkLimits_granted_free ml limiter r req.Address k he
          refine Or.inr ⟨req, limiter, rfl, hv, hl, hf1, hf2, ?_, ?_⟩
          · simp only [setupRouter.claim, hS, hreject]
          · simp only [setupRouter.claim, hS, hreject, mapGet_mapSet_self]
            rw [checkLimits_of_free ml limiter r req.Address k hf1 hf2]

/-- C3, amended, at a concrete input: the rejecting captcha and a first claim
for `addrA` on `sepolia`. -/
theorem captcha_rejects_after_admission_witness :
    (setupRouter.claim sampleLimiter rejectingDownstream clientOne
        (some { Network := "sepolia", Address := addrA }) (Ticks.at 0)).1 =
      (sampleLimiter.ServeHTTP clientOne
        (some { Network := "sepolia", Address := addrA }) (Ticks.at 0)).1 :=
  (captcha_rejects_after_admission sampleLimiter rejectingDownstream clientOne
    (some { Network := "sepolia", Address := addrA }) (Ticks.at 0)
    { Message := "Captcha verification failed, please try again", Status := 429 } rfl).1

/-! ## Independence of pools -/

/-- The limiter middleware touches no cache but the one of the network the
request names. -/
theorem ServeHTTP_other (ml : MultiChainLimiter) (r : Request)
    (decoded : Option multiChainClaimRequest) (k : Ticks) (A : String)
    (h : ∀ req, decoded = some req → A ≠ req.Network) :
    mapGet (ml.ServeHTTP r decoded k).1 A = mapGet ml.limiters A := by
  cases decoded with
  | none => rfl
  | some req =>
    have hA := h req rfl
    unfold MultiChainLimiter.ServeHTTP
    simp only
    split
    · rfl
    · split
      · rfl
      · split
        · exact mapGet_mapSet_ne _ _ _ _ hA
        · exact mapGet_mapSet_ne _ _ _ _ hA

/-- What the limiter middleware answers, and the cache it leaves for the
network the request names, depend on the limiters only through the cache of
that network. -/
theorem ServeHTTP_congr (l1 l2 : List (String × Cache)) (proxyCount : Int) (r : Request)
    (req : multiChainClaimRequest) (k : Ticks)
    (h : mapGet l1 req.Network = mapGet l2 req.Network) :
    ((NewMultiChainLimiter l1 proxyCount).ServeHTTP r (some req) k).2 =
      ((NewMultiChainLimiter l2 proxyCount).ServeHTTP r (some req) k).2 ∧
    mapGet ((NewMultiChainLimiter l1 proxyCount).ServeHTTP r (some req) k).1 req.Network =
      mapGet ((NewMultiChainLimiter l2 proxyCount).ServeHTTP r (some req) k).1 req.Network := by
  cases hv : isValidAddress req.Address with
  | false =>
    simp [MultiChainLimiter.ServeHTTP, NewMultiChainLimiter, hv, h]
  | true =>
    cases hl : mapGet l2 req.Network with
    | none =>
      have hl1 : mapGet l1 req.Network = none := by rw [h, hl]
      simp [MultiChainLimiter.ServeHTTP, NewMultiChainLimiter, hv, hl, hl1]
    | some limiter =>
      have hl1 : mapGet l1 req.Network = some limiter := by rw [h, hl]
      rw [ServeHTTP_of_valid (NewMultiChainLimiter l1 proxyCount) r req k limiter hv hl1,
        ServeHTTP_of_valid (NewMultiChainLimiter l2 proxyCount) r req k limiter hv hl]
      simp only [mapGet_mapSet_self]
      exact ⟨rfl, rfl⟩

theorem serveAll_other (proxyCount : Int) (d : Downstream) (A B : String) (hAB : A ≠ B)
    (xs : List Arrival) :
    ∀ ls : List (String × Cache), (∀ x ∈ xs, x.req.Network = B) →
      mapGet (serveAll proxyCount d ls xs) A = mapGet ls A := by
  induction xs with
  | nil => intro ls _; rfl
  | cons x rest ih =>
    intro ls hB
    have hx : x.req.Network = B := hB x (List.mem_cons_self _ _)
    have hrest : ∀ y ∈ rest, y.req.Network = B := fun y hy => hB y (List.mem_cons_of_mem _ hy)
    unfold serveAll
    rw [ih _ hrest, claim_limiters]
    refine ServeHTTP_other _ _ _ _ _ ?_
    intro req hreq
    cases hreq
    rw [hx]
    exact hAB

/-- C5. For distinct networks `A` and `B`, any sequence of requests to
`/api/claim` that name `B` leaves the limiter of `A` as it was, and a claim
against `A` served afterwards gets the same answer, and leaves the same cache
for `A`, as if those requests had never been made. -/
theorem pool_independence (proxyCount : Int) (d : Downstream) (ls : List (String × Cache))
    (xs : List Arrival) (A B : String) (hAB : A ≠ B)
    (hB : ∀ x ∈ xs, x.req.Network = B) :
    mapGet (serveAll proxyCount d ls xs) A = mapGet ls A ∧
    ∀ (r : Request) (req : multiChainClaimRequest) (k : Ticks), req.Network = A →
      (setupRouter.claim (NewMultiChainLimiter (serveAll proxyCount d ls xs) proxyCount)
          d r (some req) k).2 =
        (setupRouter.claim (NewMultiChainLimiter ls proxyCount) d r (some req) k).2 ∧
      mapGet (setupRouter.claim (NewMultiChainLimiter (serveAll proxyCount d ls xs) proxyCount)
          d r (some req) k).1 A =
        mapGet (setupRouter.claim (NewMultiChainLimiter ls proxyCount) d r (some req) k).1 A := by
  have hA := serveAll_other proxyCount d A B hAB xs ls hB
  refine ⟨hA, ?_⟩
  intro r req k hreq
  subst hreq
  obtain ⟨h2, h1⟩ := ServeHTTP_congr (serveAll proxyCount d ls xs) ls proxyCount r req k hA
  refine ⟨?_, ?_⟩
  · unfold setupRouter.claim
    cases hs1 : (NewMultiChainLimiter (serveAll proxyCount d ls xs) proxyCount).ServeHTTP
        r (some req) k with
    | mk la oa =>
      cases hs2 : (NewMultiChainLimiter ls proxyCount).ServeHTTP r (some req) k with
      | mk lb ob =>
        rw [hs1, hs2] at h2
        simp only at h2
        subst h2
        cases oa with
        | rendered resp => rfl
        | next => cases d.captcha r <;> rfl
  · rw [claim_limiters, claim_limiters]
    exact h1

/-- C5 at a concrete input: two claims on `holesky` leave the limiter of
`sepolia` as it was. -/
theorem pool_independence_witness :
    mapGet (serveAll 0 passingDownstream sampleLimiter.limiters holeskyArrivals) "sepolia" =
      mapGet sampleLimiter.limiters "sepolia" :=
  (pool_independence 0 passingDownstream sampleLimiter.limiters holeskyArrivals
    "sepolia" "holesky" (by decide) (by decide)).1

/-! ## Rejected requests -/

/-- C8, as stated, fails when the length is counted in characters.  The
string `addrAccented` has 22 characters, so it is not 42 characters long, but
it is 42 bytes long and starts with `0x`: `isValidAddress` accepts it, and a
claim for it on `sepolia` is admitted, the next handler is called and the
limiter of `sepolia` now holds two keys. -/
theorem characters_counterexample :
    addrAccented.length = 22 ∧ len addrAccented = 42 ∧
    isValidAddress addrAccented = true ∧
    (sampleLimiter.ServeHTTP clientOne
        (some { Network := "sepolia", Address := addrAccented }) (Ticks.at 0)).2 = .next ∧
    (mapGet (sampleLimiter.ServeHTTP clientOne
        (some { Network := "sepolia", Address := addrAccented }) (Ticks.at 0)).1 "sepolia").map
        (fun c => c.items.map Prod.fst) = some [addrAccented, "203.0.113.7"] ∧
    (mapGet sampleLimiter.limiters "sepolia").map (fun c => c.items.map Prod.fst) =
      some [] := by
  decide

/-- C8, amended.  A decoded request whose address is not 42 bytes long (Go
`len`) or does not start with `0x`, or whose network has no limiter, is answered by the limiter
middleware itself with status 400: the next handler is not called and the
limiters are returned as they were. -/
theorem ServeHTTP_rejects_malformed (ml : MultiChainLimiter) (r : Request)
    (req : multiChainClaimRequest) (k : Ticks)
    (h : len req.Address ≠ 42 ∨ HasPrefix req.Address "0x" = false ∨
      mapGet ml.limiters req.Network = none) :
    ∃ msg, ml.ServeHTTP r (some req) k =
        (ml.limiters, .rendered { Message := msg, Status := 400 }) ∧
      ∀ d : Downstream, setupRouter.claim ml d r (some req) k =
        (ml.limiters, .byLimiter { Message := msg, Status := 400 }) := by
  cases hv : isValidAddress req.Address with
  | false =>
    refine ⟨"invalid address", ?_, fun d => ?_⟩
    · simp [MultiChainLimiter.ServeHTTP, hv]
    · simp [setupRouter.claim, MultiChainLimiter.ServeHTTP, hv]
  | true =>
    have hnet : mapGet ml.limiters req.Network = none := by
      rcases h with h | h | h
      · simp [isValidAddress, h] at hv
      · simp [isValidAddress, h] at hv
      · exact h
    refine ⟨"unsupported network", ?_, fun d => ?_⟩
    · simp [MultiChainLimiter.ServeHTTP, hv, hnet]
    · simp [setupRouter.claim, MultiChainLimiter.ServeHTTP, hv, hnet]

/-- C8, amended, at a concrete input: a claim on `sepolia` for a 41-byte
address. -/
theorem ServeHTTP_rejects_malformed_witness :
    len addrShort = 41 ∧
    ∃ msg, sampleLimiter.ServeHTTP clientOne
        (some { Network := "sepolia", Address := addrShort }) (Ticks.at 0) =
        (sampleLimiter.limiters, .rendered { Message := msg, Status := 400 }) ∧
      ∀ d : Downstream, setupRouter.claim sampleLimiter d clientOne
        (some { Network := "sepolia", Address := addrShort }) (Ticks.at 0) =
        (sampleLimiter.limiters, .byLimiter { Message := msg, Status := 400 }) :=
  ⟨by decide, ServeHTTP_rejects_malformed sampleLimiter clientOne
    { Network := "sepolia", Address := addrShort } (Ticks.at 0) (Or.inl (by decide))⟩

/-! ## `isValidAddress` -/

theorem utf8Size_of_ascii (c : Char) (h : c.toNat < 128) : c.utf8Size = 1 := by
  have hle : c.val ≤ UInt32.ofNatCore 127 (by decide) := by
    show c.val.toNat ≤ 127
    have : c.toNat = c.val.toNat := rfl
    omega
  unfold Char.utf8Size
  simp only
  rw [if_pos hle]

theorem utf8ByteSize_go_of_ascii (l : List Char) (h : ∀ c ∈ l, c.toNat < 128) :
    String.utf8ByteSize.go l = l.length := by
  induction l with
  | nil => rfl
  | cons c cs ih =>
    have hc := utf8Size_of_ascii c (h c (List.mem_cons_self _ _))
    have hcs := ih (fun d hd => h d (List.mem_cons_of_mem _ hd))
    simp only [String.utf8ByteSize.go, List.length_cons, hc, hcs]

theorem isHexDigit_ascii (c : Char) (h : isHexDigit c = true) : c.toNat < 128 := by
  simp only [isHexDigit, Bool.or_eq_true, Bool.and_eq_true, decide_eq_true_eq] at h
  omega

/-- The function accepts exactly the strings of 42 bytes that start with `0x`. -/
theorem isValidAddress_iff (a : String) :
    isValidAddress a = true ↔ (len a = 42 ∧ HasPrefix a "0x" = true) := by
  unfold isValidAddress
  by_cases h1 : len a = 42
  · cases h2 : HasPrefix a "0x" <;> simp [h1]
  · simp [h1]

/-- Every well-formed account identifier is accepted. -/
theorem isValidAddress_of_wellFormed (a : String) (h : wellFormedAddress a = true) :
    isValidAddress a = true := by
  simp only [wellFormedAddress, Bool.and_eq_true, beq_iff_eq] at h
  obtain ⟨⟨hlen, hpre⟩, hhex⟩ := h
  rw [isValidAddress_iff]
  refine ⟨?_, hpre⟩
  have hascii : ∀ c ∈ a.data, c.toNat < 128 := by
    unfold HasPrefix at hpre
    match hd : a.data, hpre, hhex with
    | c0 :: c1 :: rest, hpre, hhex =>
      have hp : c0 = '0' ∧ c1 = 'x' := by
        have : ("0x" : String).data = ['0', 'x'] := rfl
        rw [this] at hpre
        simp only [List.isPrefixOf, Bool.and_eq_true, beq_iff_eq] at hpre
        exact ⟨hpre.1.symm, hpre.2.1.symm⟩
      intro c hc
      simp only [List.mem_cons] at hc
      rcases hc with hc | hc | hc
      · rw [hc, hp.1]; decide
      · rw [hc, hp.2]; decide
      · simp only [List.drop_succ_cons, List.drop_zero, List.all_eq_true] at hhex
        exact isHexDigit_ascii c (hhex c hc)
    | [], hpre, _ => simp [List.isPrefixOf] at hpre
    | [c0], hpre, _ =>
      have : ("0x" : String).data = ['0', 'x'] := rfl
      rw [this] at hpre
      simp [List.isPrefixOf] at hpre
  show String.utf8ByteSize a = 42
  cases a with
  | mk l =>
    show String.utf8ByteSize.go l = 42
    rw [utf8ByteSize_go_of_ascii l hascii]
    exact hlen

/-- C9, as stated, fails: `addrNotHex` is 42 bytes long and starts with `0x`,
so it is accepted, and none of its 40 other characters is a hexadecimal
digit. -/
theorem isValidAddress_counterexample :
    isValidAddress addrNotHex = true ∧ wellFormedAddress addrNotHex = false ∧
    (addrNotHex.data.drop 2).all (fun c => !isHexDigit c) = true := by
  decide

/-- C9, amended.  The function returns true exactly for the strings that are
42 bytes long and start with `0x`; the 40 bytes after the prefix are not
examined.  Every well-formed account identifier is accepted. -/
theorem isValidAddress_accepts (a : String) :
    (isValidAddress a = true ↔ (len a = 42 ∧ HasPrefix a "0x" = true)) ∧
    (wellFormedAddress a = true → isValidAddress a = true) :=
  ⟨isValidAddress_iff a, isValidAddress_of_wellFormed a⟩

/-- C9, amended, at a concrete input: the well-formed `addrA`. -/
theorem isValidAddress_accepts_witness :
    wellFormedAddress addrA = true ∧ isValidAddress addrA = true :=
  ⟨by decide, (isValidAddress_accepts addrA).2 (by decide)⟩

/-! ## `getClientIP` -/

theorem splitChars_head (sep : Char) (l : List Char) :
    (splitChars sep l).headD [] = l.takeWhile (fun c => c != sep) := by
  induction l with
  | nil => rfl
  | cons c cs ih =>
    by_cases h : c = sep
    · simp [splitChars, h]
    · simp only [splitChars, h, if_false]
      have hne : (c != sep) = true := by simpa using h
      cases hs : splitChars sep cs with
      | nil =>
        rw [hs] at ih
        simp only [List.headD_nil] at ih
        simp [List.takeWhile, hne, ← ih]
      | cons piece pieces =>
        rw [hs] at ih
        simp only [List.headD_cons] at ih
        simp [List.takeWhile, hne, ← ih]

theorem Split_head (s : String) (sep : Char) :
    (Split s sep).headD "" = String.mk (s.data.takeWhile (fun c => c != sep)) := by
  unfold Split
  rw [← splitChars_head sep s.data]
  cases splitChars sep s.data <;> rfl

/-- A chain has one entry more than it has separators. -/
theorem Split_length (s : String) (sep : Char) :
    (Split s sep).length = s.data.count sep + 1 := by
  unfold Split
  rw [List.length_map]
  induction s.data with
  | nil => rfl
  | cons c cs ih =>
    by_cases h : c = sep
    · subst h
      simp [splitChars, ih]
    · have hne : ¬ (c == sep) = true := by simpa using h
      simp only [splitChars, h, if_false, List.count_cons, hne, if_false, Nat.add_zero]
      cases hs : splitChars sep cs with
      | nil => rw [hs] at ih; simp at ih
      | cons piece pieces => rw [hs] at ih; simpa using ih

theorem entryFromEnd_eq (chain : List String) (p : Nat) (h1 : 0 < p)
    (h2 : p ≤ chain.length) :
    entryFromEnd chain p = some (chain.getD (chain.length - p) "") := by
  unfold entryFromEnd
  have hp : ¬ p = 0 := by omega
  simp only [hp, if_false]
  have hlt : p - 1 < chain.length := by omega
  have hidx : chain.length - 1 - (p - 1) = chain.length - p := by omega
  have hlt2 : chain.length - p < chain.length := by omega
  rw [List.get?_eq_getElem?, List.getElem?_reverse hlt, hidx, List.getD_eq_getElem?_getD,
    List.getElem?_eq_getElem hlt2]
  rfl

/-- What the fallback of `getClientIP` returns. -/
theorem getClientIP_fallback (r : Request) :
    (if r.Header.Get "X-Real-IP" = "" then (Split r.RemoteAddr ':').headD ""
      else r.Header.Get "X-Real-IP") =
    (if r.Header.Get "X-Real-IP" = "" then directAddress r else r.Header.Get "X-Real-IP") := by
  rw [Split_head]
  rfl

/-- Every string is the client identity of some request: with no trusted
proxy, a client chooses it through the `X-Real-IP` header. -/
theorem getClientIP_any (c : String) : ∃ r : Request, getClientIP r 0 = c := by
  by_cases h : c = ""
  · subst h
    exact ⟨mkRequest "" "" "", by decide⟩
  · refine ⟨mkRequest "" c "", ?_⟩
    simp [getClientIP, mkRequest, h]

/-- C10, as stated, fails in both branches.  With no trusted proxy the
`X-Real-IP` header decides, although the code announces a fallback to the
direct connection: two requests from the same remote address get
different identities, and the one with the header does not get its
connection address.  With two trusted proxies and a chain of one entry there
is no entry two places from the end, and the connection address is
returned. -/
theorem getClientIP_counterexample :
    clientWithRealIP.RemoteAddr = clientOne.RemoteAddr ∧
    getClientIP clientOne 0 = "203.0.113.7" ∧
    getClientIP clientWithRealIP 0 = "7.7.7.7" ∧
    claimedClientIP clientWithRealIP 0 = "203.0.113.7" ∧
    entryFromEnd (Split (clientShortChain.Header.Get "X-Forwarded-For") ',') 2 = none ∧
    getClientIP clientShortChain 2 = "203.0.113.7" ∧
    getClientIP clientShortChain 2 ≠ claimedClientIP clientShortChain 2 := by
  decide

/-- The two branches of `getClientIP`: the trimmed entry of the chain when
the proxy count is positive and the chain is long enough, and the fallback
in every other case. -/
theorem getClientIP_cases (r : Request) (p : Int) :
    (0 < p → r.Header.Get "X-Forwarded-For" ≠ "" →
      p ≤ ((Split (r.Header.Get "X-Forwarded-For") ',').length : Int) →
      ∃ e, entryFromEnd (Split (r.Header.Get "X-Forwarded-For") ',') p.toNat = some e ∧
        getClientIP r p = TrimSpace e) ∧
    (¬ (0 < p ∧ r.Header.Get "X-Forwarded-For" ≠ "" ∧
        p ≤ ((Split (r.Header.Get "X-Forwarded-For") ',').length : Int)) →
      getClientIP r p =
        if r.Header.Get "X-Real-IP" = "" then directAddress r
        else r.Header.Get "X-Real-IP") := by
  constructor
  · intro hp hx hl
    refine ⟨_, entryFromEnd_eq _ p.toNat (by omega) (by omega), ?_⟩
    unfold getClientIP
    have hl2 : ((Split (r.Header.Get "X-Forwarded-For") ',').length : Int) ≥ p := hl
    simp only [gt_iff_lt, hp, if_true, hx, ne_eq, not_false_eq_true, hl2, ge_iff_le]
  · intro hnot
    rw [← getClientIP_fallback]
    unfold getClientIP
    by_cases hp : 0 < p
    · by_cases hx : r.Header.Get "X-Forwarded-For" = ""
      · simp [hp, hx]
      · have hl : ¬ p ≤ ((Split (r.Header.Get "X-Forwarded-For") ',').length : Int) :=
          fun hl => hnot ⟨hp, hx, hl⟩
        simp [hp, hx, hl]
    · simp [hp]

/-- C10, amended.  When the proxy count `p` is positive, the
`X-Forwarded-For` header is not empty and its comma-separated chain has at
least `p` entries, `getClientIP` returns the trimmed entry `p` places from the
end of the chain.  In every other case (`p` not positive, no
`X-Forwarded-For` header, or a chain shorter than `p`), for a request that
carries no `X-Real-IP` header, it returns the text of `RemoteAddr` before its
first colon. -/
theorem getClientIP_eq (r : Request) (p : Int) :
    (0 < p → r.Header.Get "X-Forwarded-For" ≠ "" →
      p ≤ ((Split (r.Header.Get "X-Forwarded-For") ',').length : Int) →
      ∃ e, entryFromEnd (Split (r.Header.Get "X-Forwarded-For") ',') p.toNat = some e ∧
        getClientIP r p = TrimSpace e) ∧
    (¬ (0 < p ∧ r.Header.Get "X-Forwarded-For" ≠ "" ∧
        p ≤ ((Split (r.Header.Get "X-Forwarded-For") ',').length : Int)) →
      r.Header.Get "X-Real-IP" = "" →
      getClientIP r p = directAddress r) := by
  refine ⟨(getClientIP_cases r p).1, ?_⟩
  intro hnot hreal
  rw [(getClientIP_cases r p).2 hnot, if_pos hreal]

/-- C10, amended, at concrete inputs: two trusted proxies and a chain of
three entries give the second entry from the end, trimmed; a chain of one
entry, and no trusted proxy, give the connection address of a request
without `X-Real-IP`. -/
theorem getClientIP_eq_witness :
    getClientIP clientLongChain 2 = "10.0.0.2" ∧
    (∃ e, entryFromEnd (Split (clientLongChain.Header.Get "X-Forwarded-For") ',')
        (2 : Int).toNat = some e ∧
      getClientIP clientLongChain 2 = TrimSpace e) ∧
    getClientIP clientShortChain 2 = directAddress clientShortChain ∧
    getClientIP clientOne 0 = directAddress clientOne :=
  ⟨by decide, (getClientIP_eq clientLongChain 2).1 (by decide) (by decide) (by decide),
   (getClientIP_eq clientShortChain 2).2 (by decide) (by decide),
   (getClientIP_eq clientOne 0).2 (by decide) (by decide)⟩

/-! ## `AddChainWithKey` -/

theorem mapGet_mem {β : Type} (m : List (String × β)) (key : String) (v : β)
    (h : mapGet m key = some v) : (key, v) ∈ m := by
  induction m with
  | nil => simp [mapGet] at h
  | cons p rest ih =>
    obtain ⟨k, w⟩ := p
    by_cases hk : k = key
    · simp only [mapGet, hk, if_true, Option.some.injEq] at h
      simp [hk, h]
    · simp only [mapGet, hk, if_false] at h
      exact List.mem_cons_of_mem _ (ih h)

/-- Every network of the catalog has a default RPC endpoint. -/
theorem NetworkConfigs_DefaultRPC (name : String) (cfg : NetworkConfig)
    (h : mapGet NetworkConfigs name = some cfg) : cfg.DefaultRPC ≠ "" := by
  have hall : ∀ p ∈ NetworkConfigs, p.2.DefaultRPC ≠ "" := by decide
  exact hall (name, cfg) (mapGet_mem _ _ _ h)

/-- The empty name is not in the catalog, whatever the case mapping. -/
theorem GetNetworkByName_empty (lower : Char → Char) : GetNetworkByName lower "" = none := by
  rfl

/-- An input whose lower-cased network name is not in the catalog is refused
and the configuration is returned as it was. -/
theorem AddChainWithKey_unknown (lower : Char → Char) (mc : MultiChainConfig)
    (input : ChainConfigInput) (key : ecdsa.PrivateKey)
    (h : mapGet NetworkConfigs (ToLower lower input.Network) = none) :
    mc.AddChainWithKey lower input key =
      (mc, some ("unsupported network: " ++ input.Network)) := by
  unfold MultiChainConfig.AddChainWithKey GetNetworkByName
  rw [h]

/-- C11. When the lower-cased network name of the input is not a key of the
catalog, `AddChainWithKey` returns the error `unsupported network` and the
configuration, its `Chains` and `DefaultChain` included, is what it was. -/
theorem AddChainWithKey_unknown_network (lower : Char → Char) (mc : MultiChainConfig)
    (input : ChainConfigInput) (key : ecdsa.PrivateKey)
    (h : mapGet NetworkConfigs (ToLower lower input.Network) = none) :
    mc.AddChainWithKey lower input key =
      (mc, some ("unsupported network: " ++ input.Network)) ∧
    (mc.AddChainWithKey lower input key).1.Chains = mc.Chains ∧
    (mc.AddChainWithKey lower input key).1.DefaultChain = mc.DefaultChain := by
  rw [AddChainWithKey_unknown lower mc input key h]
  exact ⟨rfl, rfl, rfl⟩

/-- C11 at a concrete input: `unknown-net` is refused. -/
theorem AddChainWithKey_unknown_network_witness :
    NewMultiChainConfig.AddChainWithKey Char.toLower inputUnknown sampleKey =
      (NewMultiChainConfig, some ("unsupported network: " ++ inputUnknown.Network)) :=
  (AddChainWithKey_unknown_network Char.toLower NewMultiChainConfig inputUnknown sampleKey
    (by decide)).1

/-- The result of `AddChainWithKey` for a network of the catalog. -/
theorem AddChainWithKey_known (lower : Char → Char) (mc : MultiChainConfig)
    (input : ChainConfigInput) (key : ecdsa.PrivateKey) (cfg : NetworkConfig)
    (h : mapGet NetworkConfigs (ToLower lower input.Network) = some cfg) :
    mc.AddChainWithKey lower input key =
      (MultiChainConfig.AddChainWithKey.register mc input key cfg
        (if input.Provider = "" then cfg.DefaultRPC else input.Provider), none) := by
  have hrpc := NetworkConfigs_DefaultRPC _ cfg h
  unfold MultiChainConfig.AddChainWithKey GetNetworkByName
  rw [h]
  by_cases hp : input.Provider = ""
  · simp [hp, hrpc]
  · simp [hp]

theorem register_Chains (mc : MultiChainConfig) (input : ChainConfigInput)
    (key : ecdsa.PrivateKey) (cfg : NetworkConfig) (provider : String) :
    (MultiChainConfig.AddChainWithKey.register mc input key cfg provider).Chains =
      mapSet mc.Chains input.Network
        { Network := input.Network, Config := cfg, PrivateKey := key, Provider := provider,
          Payout := if input.Payout.isZero then Float64.one else input.Payout,
          Interval := if input.Interval = 0 then 1440 else input.Interval } := by
  unfold MultiChainConfig.AddChainWithKey.register
  by_cases hd : mc.DefaultChain = "" <;> simp [hd]

theorem register_DefaultChain (mc : MultiChainConfig) (input : ChainConfigInput)
    (key : ecdsa.PrivateKey) (cfg : NetworkConfig) (provider : String) :
    (MultiChainConfig.AddChainWithKey.register mc input key cfg provider).DefaultChain =
      if mc.DefaultChain = "" then input.Network else mc.DefaultChain := by
  unfold MultiChainConfig.AddChainWithKey.register
  by_cases hd : mc.DefaultChain = "" <;> simp [hd]

/-- C12. When the lower-cased network name of the input is a key of the
catalog, `AddChainWithKey` returns no error, the pool stored under the
input's network name afterwards has the catalog descriptor, the given key, the
input's provider if not empty and else the catalog's default RPC, the input's
payout if not zero and else 1.0, the input's interval if not zero and else
1440, and the pool stored under every other name is what it was. -/
theorem AddChainWithKey_registers (lower : Char → Char) (mc : MultiChainConfig)
    (input : ChainConfigInput) (key : ecdsa.PrivateKey) (cfg : NetworkConfig)
    (h : mapGet NetworkConfigs (ToLower lower input.Network) = some cfg) :
    (mc.AddChainWithKey lower input key).2 = none ∧
    (mc.AddChainWithKey lower input key).1.GetChain input.Network =
      some { Network := input.Network, Config := cfg, PrivateKey := key,
             Provider := if input.Provider = "" then cfg.DefaultRPC else input.Provider,
             Payout := if input.Payout.isZero then Float64.one else input.Payout,
             Interval := if input.Interval = 0 then 1440 else input.Interval } ∧
    ∀ other : String, other ≠ input.Network →
      (mc.AddChainWithKey lower input key).1.GetChain other = mc.GetChain other := by
  rw [AddChainWithKey_known lower mc input key cfg h]
  refine ⟨rfl, ?_, ?_⟩
  · unfold MultiChainConfig.GetChain
    simp only [register_Chains, mapGet_mapSet_self]
  · intro other hne
    unfold MultiChainConfig.GetChain
    simp only [register_Chains]
    exact mapGet_mapSet_ne _ _ _ _ hne

/-- C12 at a concrete input: `Sepolia`, in mixed case and with every other
field at its zero value, is registered under the name as typed with the
catalog's default RPC, payout 1.0 and interval 1440. -/
theorem AddChainWithKey_registers_witness :
    (NewMultiChainConfig.AddChainWithKey Char.toLower inputSepolia sampleKey).2 = none ∧
    (NewMultiChainConfig.AddChainWithKey Char.toLower inputSepolia sampleKey).1.GetChain
        "Sepolia" =
      some { Network := "Sepolia",
             Config := { ChainID := 11155111, Symbol := "ETH", Name := "Ethereum Sepolia",
                         IsTestnet := true, DefaultRPC := "https://sepolia.infura.io/v3/" },
             PrivateKey := sampleKey, Provider := "https://sepolia.infura.io/v3/",
             Payout := Float64.one, Interval := 1440 } :=
  ⟨(AddChainWithKey_registers Char.toLower NewMultiChainConfig inputSepolia sampleKey
      { ChainID := 11155111, Symbol := "ETH", Name := "Ethereum Sepolia",
        IsTestnet := true, DefaultRPC := "https://sepolia.infura.io/v3/" } (by decide)).1,
   by decide⟩

/-! ## Payout and interval of registered pools -/

/-- What `AddChainWithKey` does to the pools, whether it fails or not: either
nothing, or one pool is stored under the input's name, with the input's
payout and interval unless these are zero. -/
theorem AddChainWithKey_Chains (lower : Char → Char) (mc : MultiChainConfig)
    (input : ChainConfigInput) (key : ecdsa.PrivateKey) :
    (mc.AddChainWithKey lower input key).1.Chains = mc.Chains ∨
    ∃ cfg provider,
      (mc.AddChainWithKey lower input key).1.Chains =
        mapSet mc.Chains input.Network
          { Network := input.Network, Config := cfg, PrivateKey := key, Provider := provider,
            Payout := if input.Payout.isZero then Float64.one else input.Payout,
            Interval := if input.Interval = 0 then 1440 else input.Interval } := by
  cases h : mapGet NetworkConfigs (ToLower lower input.Network) with
  | none =>
    left
    rw [AddChainWithKey_unknown lower mc input key h]
  | some cfg =>
    right
    rw [AddChainWithKey_known lower mc input key cfg h]
    exact ⟨cfg, _, register_Chains mc input key cfg _⟩

/-- A property of pools that holds of every pool a call would store, and of
every pool already stored, holds of every pool stored after the calls. -/
theorem addChains_pools (lower : Char → Char) (P : ChainInstance → Prop)
    (calls : List (ChainConfigInput × ecdsa.PrivateKey)) :
    ∀ mc : MultiChainConfig,
      (∀ name pool, mapGet mc.Chains name = some pool → P pool) →
      (∀ c ∈ calls, ∀ cfg provider,
        P { Network := c.1.Network, Config := cfg, PrivateKey := c.2, Provider := provider,
            Payout := if c.1.Payout.isZero then Float64.one else c.1.Payout,
            Interval := if c.1.Interval = 0 then 1440 else c.1.Interval }) →
      ∀ name pool, mapGet (addChains lower mc calls).Chains name = some pool → P pool := by
  induction calls with
  | nil => intro mc hmc _ name pool h; exact hmc name pool h
  | cons c rest ih =>
    obtain ⟨input, key⟩ := c
    intro mc hmc hcalls
    unfold addChains
    refine ih _ ?_ (fun d hd => hcalls d (List.mem_cons_of_mem _ hd))
    intro name pool hget
    rcases AddChainWithKey_Chains lower mc input key with hsame | ⟨cfg, provider, hset⟩
    · rw [hsame] at hget
      exact hmc name pool hget
    · rw [hset] at hget
      by_cases hn : name = input.Network
      · subst hn
        rw [mapGet_mapSet_self] at hget
        cases hget
        exact hcalls (input, key) (List.mem_cons_self _ _) cfg provider
      · rw [mapGet_mapSet_ne _ _ _ _ hn] at hget
        exact hmc name pool hget

/-- C13, as stated, fails: only the zero value is replaced by a default.  An
input for `sepolia` with payout -1.0 and interval -5 is accepted, and the pool
registered has that negative payout and that negative interval. -/
theorem pool_invariant_counterexample :
    (NewMultiChainConfig.AddChainWithKey Char.toLower inputNegative sampleKey).2 = none ∧
    ((NewMultiChainConfig.AddChainWithKey Char.toLower inputNegative sampleKey).1.GetChain
        "sepolia").map (fun pool => (pool.Payout, pool.Interval)) =
      some (Float64.minusOne, -5) ∧
    Float64.minusOne.isNegative = true ∧ Float64.minusOne.isPositive = false ∧
    ¬ ((0 : Int) < -5) := by
  decide

/-- C13, amended.  Every pool registered in a configuration reached from
`NewMultiChainConfig` by a sequence of `AddChainWithKey` calls has a payout
that is not zero and an interval that is not zero.  Its payout and interval
are positive when no input of the sequence has a negative or not-a-number
payout or a negative interval. -/
theorem pool_payout_interval_nonzero (lower : Char → Char)
    (calls : List (ChainConfigInput × ecdsa.PrivateKey)) (name : String)
    (pool : ChainInstance)
    (h : (addChains lower NewMultiChainConfig calls).GetChain name = some pool) :
    (pool.Payout.isZero = false ∧ pool.Interval ≠ 0) ∧
    ((∀ c ∈ calls, (c.1.Payout.isZero = true ∨ c.1.Payout.isPositive = true) ∧
        0 ≤ c.1.Interval) →
      pool.Payout.isPositive = true ∧ 0 < pool.Interval) := by
  unfold MultiChainConfig.GetChain at h
  constructor
  · refine addChains_pools lower (fun p => p.Payout.isZero = false ∧ p.Interval ≠ 0) calls
      NewMultiChainConfig ?_ ?_ name pool h
    · intro n p hp
      simp [NewMultiChainConfig, mapGet] at hp
    · intro c _ cfg provider
      simp only
      constructor
      · cases hz : c.1.Payout.isZero
        · simp [hz]
        · simp only [if_true]; decide
      · by_cases hi : c.1.Interval = 0
        · simp [hi]
        · simp [hi]
  · intro hcalls
    refine addChains_pools lower (fun p => p.Payout.isPositive = true ∧ 0 < p.Interval) calls
      NewMultiChainConfig ?_ ?_ name pool h
    · intro n p hp
      simp [NewMultiChainConfig, mapGet] at hp
    · intro c hc cfg provider
      obtain ⟨hpay, hint⟩ := hcalls c hc
      simp only
      constructor
      · cases hz : c.1.Payout.isZero
        · rcases hpay with hp | hp
          · rw [hz] at hp; cases hp
          · simpa [hz] using hp
        · simp only [if_true]; decide
      · by_cases hi : c.1.Interval = 0
        · simp [hi]
        · simp only [hi, if_false]
          omega

/-- C13, amended, at a concrete input: after `Sepolia` with zero values and
`holesky` with payout 0.1 and interval 60, the pool of `holesky` has a positive
payout and a positive interval. -/
theorem pool_payout_interval_nonzero_witness :
    (addChains Char.toLower NewMultiChainConfig
        [(inputSepolia, sampleKey), (inputHolesky, sampleKey)]).GetChain "holesky" =
      some { Network := "holesky",
             Config := { ChainID := 17000, Symbol := "ETH", Name := "Ethereum Holesky",
                         IsTestnet := true,
                         DefaultRPC := "https://ethereum-holesky.publicnode.com" },
             PrivateKey := sampleKey, Provider := "https://rpc.example.org",
             Payout := Float64.tenth, Interval := 60 } ∧
    (Float64.tenth.isZero = false ∧ (60 : Int) ≠ 0) ∧
    (Float64.tenth.isPositive = true ∧ (0 : Int) < 60) :=
  have hget : (addChains Char.toLower NewMultiChainConfig
        [(inputSepolia, sampleKey), (inputHolesky, sampleKey)]).GetChain "holesky" =
      some { Network := "holesky",
             Config := { ChainID := 17000, Symbol := "ETH", Name := "Ethereum Holesky",
                         IsTestnet := true,
                         DefaultRPC := "https://ethereum-holesky.publicnode.com" },
             PrivateKey := sampleKey, Provider := "https://rpc.example.org",
             Payout := Float64.tenth, Interval := 60 } := by decide
  have hthm := pool_payout_interval_nonzero Char.toLower
    [(inputSepolia, sampleKey), (inputHolesky, sampleKey)] "holesky" _ hget
  ⟨hget, hthm.1, hthm.2 (by decide)⟩

/-! ## The default chain -/

theorem mapSet_ne_nil {β : Type} (m : List (String × β)) (key : String) (v : β) :
    mapSet m key v ≠ [] := by
  cases m with
  | nil => simp [mapSet]
  | cons p rest =>
    obtain ⟨k, w⟩ := p
    by_cases hk : k = key <;> simp [mapSet, hk]

/-- The two outcomes of `AddChainWithKey`: an error and the configuration as
it was, or no error, a pool stored under the input's name, which is not
empty, and the default chain set if it was empty. -/
theorem AddChainWithKey_cases (lower : Char → Char) (mc : MultiChainConfig)
    (input : ChainConfigInput) (key : ecdsa.PrivateKey) :
    (∃ err, mc.AddChainWithKey lower input key = (mc, some err)) ∨
    ((mc.AddChainWithKey lower input key).2 = none ∧ input.Network ≠ "" ∧
      (∃ pool, (mc.AddChainWithKey lower input key).1.Chains =
        mapSet mc.Chains input.Network pool) ∧
      (mc.AddChainWithKey lower input key).1.DefaultChain =
        if mc.DefaultChain = "" then input.Network else mc.DefaultChain) := by
  cases h : mapGet NetworkConfigs (ToLower lower input.Network) with
  | none => exact Or.inl ⟨_, AddChainWithKey_unknown lower mc input key h⟩
  | some cfg =>
    right
    rw [AddChainWithKey_known lower mc input key cfg h]
    refine ⟨rfl, ?_, ⟨_, register_Chains mc input key cfg _⟩, register_DefaultChain mc input key cfg _⟩
    intro hempty
    rw [hempty] at h
    have := GetNetworkByName_empty lower
    unfold GetNetworkByName at this
    rw [this] at h
    cases h

theorem AddChainWithKey_DefaultChainOK (lower : Char → Char) (mc : MultiChainConfig)
    (input : ChainConfigInput) (key : ecdsa.PrivateKey) (h : DefaultChainOK mc) :
    DefaultChainOK (mc.AddChainWithKey lower input key).1 := by
  rcases AddChainWithKey_cases lower mc input key with ⟨err, he⟩ | ⟨_, hname, ⟨pool, hch⟩, hd⟩
  · rw [he]; exact h
  · unfold DefaultChainOK MultiChainConfig.GetChain
    rw [hch, hd]
    by_cases hdef : mc.DefaultChain = ""
    · simp only [hdef, if_true]
      refine ⟨⟨fun e => absurd e hname, fun e => absurd e (mapSet_ne_nil _ _ _)⟩, ?_⟩
      intro _
      exact ⟨pool, mapGet_mapSet_self _ _ _⟩
    · rw [if_neg hdef]
      refine ⟨⟨fun e => absurd e hdef, fun e => absurd e (mapSet_ne_nil _ _ _)⟩, ?_⟩
      intro _
      obtain ⟨old, hold⟩ := h.2 hdef
      unfold MultiChainConfig.GetChain at hold
      by_cases hn : mc.DefaultChain = input.Network
      · rw [hn]
        exact ⟨pool, mapGet_mapSet_self _ _ _⟩
      · rw [mapGet_mapSet_ne _ _ _ _ hn]
        exact ⟨old, hold⟩

theorem AddChainWithKey_DefaultChain_stable (lower : Char → Char) (mc : MultiChainConfig)
    (input : ChainConfigInput) (key : ecdsa.PrivateKey) (h : mc.DefaultChain ≠ "") :
    (mc.AddChainWithKey lower input key).1.DefaultChain = mc.DefaultChain := by
  rcases AddChainWithKey_cases lower mc input key with ⟨err, he⟩ | ⟨_, _, _, hd⟩
  · rw [he]
  · rw [hd]; simp [h]

theorem addChains_DefaultChainOK (lower : Char → Char)
    (calls : List (ChainConfigInput × ecdsa.PrivateKey)) :
    ∀ mc : MultiChainConfig, DefaultChainOK mc → DefaultChainOK (addChains lower mc calls) := by
  induction calls with
  | nil => intro mc h; exact h
  | cons c rest ih =>
    obtain ⟨input, key⟩ := c
    intro mc h
    unfold addChains
    exact ih _ (AddChainWithKey_DefaultChainOK lower mc input key h)

theorem addChains_DefaultChain_stable (lower : Char → Char)
    (calls : List (ChainConfigInput × ecdsa.PrivateKey)) :
    ∀ mc : MultiChainConfig, mc.DefaultChain ≠ "" →
      (addChains lower mc calls).DefaultChain = mc.DefaultChain := by
  induction calls with
  | nil => intro mc _; rfl
  | cons c rest ih =>
    obtain ⟨input, key⟩ := c
    intro mc h
    unfold addChains
    have hs := AddChainWithKey_DefaultChain_stable lower mc input key h
    rw [ih _ (by rw [hs]; exact h), hs]

theorem addChains_DefaultChain_first (lower : Char → Char)
    (calls : List (ChainConfigInput × ecdsa.PrivateKey)) :
    ∀ mc : MultiChainConfig, mc.DefaultChain = "" →
      (addChains lower mc calls).DefaultChain = (firstAdded lower mc calls).getD "" := by
  induction calls with
  | nil => intro mc h; simpa [addChains, firstAdded] using h
  | cons c rest ih =>
    obtain ⟨input, key⟩ := c
    intro mc h
    unfold addChains firstAdded
    rcases AddChainWithKey_cases lower mc input key with ⟨err, he⟩ | ⟨hok, hname, _, hd⟩
    · rw [he]
      exact ih mc h
    · rw [h] at hd
      simp only [if_true] at hd
      cases hr : mc.AddChainWithKey lower input key with
      | mk added e =>
        rw [hr] at hok hd
        simp only at hok hd
        subst hok
        simp only [Option.getD_some]
        rw [addChains_DefaultChain_stable lower rest added (by rw [hd]; exact hname), hd]

theorem addNetworks_ok (lower : Char → Char) (readers : KeyReaders)
    (nets : List NetworkConfigFile) :
    ∀ mc loaded : MultiChainConfig,
      loadMultiChainConfig.addNetworks lower readers mc nets = .ok loaded →
      (DefaultChainOK mc → DefaultChainOK loaded) ∧
      (mc.DefaultChain = "" → loaded.DefaultChain = (nets.head?.map (fun n => n.Name)).getD "") := by
  induction nets with
  | nil =>
    intro mc loaded h
    simp only [loadMultiChainConfig.addNetworks, Except.ok.injEq] at h
    subst h
    exact ⟨fun h => h, fun h => by simpa using h⟩
  | cons n rest ih =>
    intro mc loaded h
    unfold loadMultiChainConfig.addNetworks at h
    simp only at h
    split at h
    · cases h
    · rename_i privateKey _
      split at h
      · cases h
      · rename_i added hadd
        have hfst : (mc.AddChainWithKey lower (chainInputOf n) privateKey).1 = added := by
          rw [hadd]
        have hsnd : (mc.AddChainWithKey lower (chainInputOf n) privateKey).2 = none := by
          rw [hadd]
        obtain ⟨ih1, _⟩ := ih added loaded h
        constructor
        · intro hok
          refine ih1 ?_
          rw [← hfst]
          exact AddChainWithKey_DefaultChainOK lower mc _ privateKey hok
        · intro hempty
          rcases AddChainWithKey_cases lower mc (chainInputOf n) privateKey with
            ⟨err, he⟩ | ⟨_, hname, _, hd⟩
          · rw [he] at hsnd
            cases hsnd
          · rw [hfst, hempty] at hd
            simp only [if_true] at hd
            have hne : added.DefaultChain ≠ "" := by rw [hd]; exact hname
            have hstable : ∀ (more : List NetworkConfigFile) (a b : MultiChainConfig),
                loadMultiChainConfig.addNetworks lower readers a more = .ok b →
                a.DefaultChain ≠ "" → b.DefaultChain = a.DefaultChain := by
              intro more
              induction more with
              | nil =>
                intro a b hab _
                simp only [loadMultiChainConfig.addNetworks, Except.ok.injEq] at hab
                rw [hab]
              | cons m more ihm =>
                intro a b hab ha
                unfold loadMultiChainConfig.addNetworks at hab
                simp only at hab
                split at hab
                · cases hab
                · rename_i pk _
                  split at hab
                  · cases hab
                  · rename_i a2 ha2
                    have h1 : (a.AddChainWithKey lower (chainInputOf m) pk).1 = a2 := by
                      rw [ha2]
                    have h2 := AddChainWithKey_DefaultChain_stable lower a (chainInputOf m) pk ha
                    rw [h1] at h2
                    rw [ihm a2 b hab (by rw [h2]; exact ha), h2]
            rw [hstable rest added loaded h hne, hd]
            rfl

theorem NewMultiChainConfig_DefaultChainOK : DefaultChainOK NewMultiChainConfig :=
  ⟨⟨fun _ => rfl, fun _ => rfl⟩, fun h => absurd rfl h⟩

/-- C14. In every configuration reached from `NewMultiChainConfig` by a
sequence of `AddChainWithKey` calls, the default chain is empty exactly when
no pool is registered and is otherwise a key of `Chains`; it is the network
name of the first call of the sequence that returned no error, and further
calls do not change it.  Every configuration `loadMultiChainConfig` returns
satisfies the same invariant; its default chain is the one the file gives,
and, when the file gives none, the name of the first network of the file. -/
theorem default_chain_invariant (lower : Char → Char) :
    (∀ calls : List (ChainConfigInput × ecdsa.PrivateKey),
      DefaultChainOK (addChains lower NewMultiChainConfig calls) ∧
      (addChains lower NewMultiChainConfig calls).DefaultChain =
        (firstAdded lower NewMultiChainConfig calls).getD "" ∧
      ∀ more : List (ChainConfigInput × ecdsa.PrivateKey),
        (addChains lower NewMultiChainConfig calls).DefaultChain ≠ "" →
        (addChains lower (addChains lower NewMultiChainConfig calls) more).DefaultChain =
          (addChains lower NewMultiChainConfig calls).DefaultChain) ∧
    (∀ (readers : KeyReaders) (fileConfig : MultiChainConfigFile) (mc : MultiChainConfig),
      loadMultiChainConfig lower readers fileConfig = .ok mc →
      DefaultChainOK mc ∧
      (fileConfig.DefaultNetwork ≠ "" → mc.DefaultChain = fileConfig.DefaultNetwork) ∧
      (fileConfig.DefaultNetwork = "" →
        mc.DefaultChain = (fileConfig.Networks.head?.map (fun n => n.Name)).getD "")) := by
  constructor
  · intro calls
    exact ⟨addChains_DefaultChainOK lower calls _ NewMultiChainConfig_DefaultChainOK,
      addChains_DefaultChain_first lower calls _ rfl,
      fun more h => addChains_DefaultChain_stable lower more _ h⟩
  · intro readers fileConfig mc hload
    unfold loadMultiChainConfig at hload
    simp only at hload
    split at hload
    · cases hload
    · rename_i loaded hnets
      obtain ⟨hok, hfirst⟩ := addNetworks_ok lower readers fileConfig.Networks _ loaded hnets
      have hok2 : DefaultChainOK loaded :=
        hok ⟨⟨fun _ => rfl, fun _ => rfl⟩, fun h => absurd rfl h⟩
      have hfirst2 := hfirst rfl
      by_cases hdn : fileConfig.DefaultNetwork = ""
      · simp only [hdn, ne_eq, not_true_eq_false, if_false, Except.ok.injEq] at hload
        subst hload
        exact ⟨hok2, fun h => absurd hdn h, fun _ => hfirst2⟩
      · simp only [ne_eq, hdn, not_false_eq_true, if_true] at hload
        split at hload
        · cases hload
        · rename_i pool hget
          simp only [Except.ok.injEq] at hload
          subst hload
          refine ⟨?_, fun _ => rfl, fun h => absurd h hdn⟩
          unfold DefaultChainOK MultiChainConfig.GetChain
          simp only
          unfold MultiChainConfig.GetChain at hget
          refine ⟨⟨fun e => absurd e hdn, ?_⟩, fun _ => ⟨pool, hget⟩⟩
          intro hnil
          rw [hnil] at hget
          simp [mapGet] at hget

/-- C14 at concrete inputs.  After a refused `unknown-net`, `Sepolia` and
`holesky`, the default chain is `Sepolia`.  The file with `bsc-testnet` and
`sepolia` and no default network loads with default chain `bsc-testnet`. -/
theorem default_chain_invariant_witness :
    (addChains Char.toLower NewMultiChainConfig
      [(inputUnknown, sampleKey), (inputSepolia, sampleKey),
       (inputHolesky, sampleKey)]).DefaultChain = "Sepolia" ∧
    DefaultChainOK (addChains Char.toLower NewMultiChainConfig
      [(inputUnknown, sampleKey), (inputSepolia, sampleKey), (inputHolesky, sampleKey)]) ∧
    (∀ mc, loadMultiChainConfig Char.toLower sampleReaders twoNetworksFile = .ok mc →
      mc.DefaultChain = "bsc-testnet") ∧
    (∃ mc, loadMultiChainConfig Char.toLower sampleReaders twoNetworksFile = .ok mc) :=
  ⟨by decide,
   ((default_chain_invariant Char.toLower).1
      [(inputUnknown, sampleKey), (inputSepolia, sampleKey), (inputHolesky, sampleKey)]).1,
   fun mc h =>
     (((default_chain_invariant Char.toLower).2 sampleReaders twoNetworksFile mc h).2.2
       rfl).trans (by decide),
   ⟨_, rfl⟩⟩

/-! ## The sample configuration -/

/-- A case mapping that agrees with Go on ASCII maps ASCII text as
`Char.toLower` does. -/
theorem ToLower_of_ascii (lower : Char → Char)
    (hlower : ∀ c : Char, c.toNat < 128 → lower c = c.toLower) (s : String)
    (h : ∀ c ∈ s.data, c.toNat < 128) : ToLower lower s = ToLower Char.toLower s := by
  unfold ToLower
  congr 1
  exact List.map_congr_left (fun c hc => hlower c (h c hc))

/-- C15, the code at the failing input.  Of the three networks of the sample
configuration, all with an empty provider, `sepolia` and `bsc-testnet` are
added with the catalog's default RPC, but `polygon-mumbai` is not in the
catalog: adding it fails with `unsupported network` and registers nothing, so
loading the sample configuration fails whatever the key readers return. -/
theorem sampleConfig_polygon_mumbai_unsupported (lower : Char → Char)
    (hlower : ∀ c : Char, c.toNat < 128 → lower c = c.toLower)
    (mc : MultiChainConfig) (key : ecdsa.PrivateKey) :
    GenerateMultiChainConfig.sampleConfig.Networks.map (fun n => (n.Name, n.Provider)) =
      [("sepolia", ""), ("polygon-mumbai", ""), ("bsc-testnet", "")] ∧
    ((mc.AddChainWithKey lower (chainInputOf GenerateMultiChainConfig.sepolia) key).2 = none ∧
      ((mc.AddChainWithKey lower (chainInputOf GenerateMultiChainConfig.sepolia) key).1.GetChain
        "sepolia").map (fun pool => pool.Provider) = some "https://sepolia.infura.io/v3/") ∧
    ((mc.AddChainWithKey lower (chainInputOf GenerateMultiChainConfig.bscTestnet) key).2 = none ∧
      ((mc.AddChainWithKey lower (chainInputOf GenerateMultiChainConfig.bscTestnet)
        key).1.GetChain "bsc-testnet").map (fun pool => pool.Provider) =
        some "https://data-seed-prebsc-1-s1.binance.org:8545") ∧
    mapGet NetworkConfigs "polygon-mumbai" = none ∧
    mc.AddChainWithKey lower (chainInputOf GenerateMultiChainConfig.polygonMumbai) key =
      (mc, some "unsupported network: polygon-mumbai") ∧
    ∀ readers : KeyReaders,
      ∃ err, loadMultiChainConfig lower readers GenerateMultiChainConfig.sampleConfig =
        .error err := by
  have hS : ToLower lower "sepolia" = "sepolia" :=
    (ToLower_of_ascii lower hlower "sepolia" (by decide)).trans (by decide)
  have hM : ToLower lower "polygon-mumbai" = "polygon-mumbai" :=
    (ToLower_of_ascii lower hlower "polygon-mumbai" (by decide)).trans (by decide)
  have hB : ToLower lower "bsc-testnet" = "bsc-testnet" :=
    (ToLower_of_ascii lower hlower "bsc-testnet" (by decide)).trans (by decide)
  have hgS : mapGet NetworkConfigs (ToLower lower (chainInputOf
      GenerateMultiChainConfig.sepolia).Network) =
      some { ChainID := 11155111, Symbol := "ETH", Name := "Ethereum Sepolia",
             IsTestnet := true, DefaultRPC := "https://sepolia.infura.io/v3/" } := by
    show mapGet NetworkConfigs (ToLower lower "sepolia") = _
    rw [hS]; decide
  have hgB : mapGet NetworkConfigs (ToLower lower (chainInputOf
      GenerateMultiChainConfig.bscTestnet).Network) =
      some { ChainID := 97, Symbol := "BNB", Name := "BNB Smart Chain Testnet",
             IsTestnet := true,
             DefaultRPC := "https://data-seed-prebsc-1-s1.binance.org:8545" } := by
    show mapGet NetworkConfigs (ToLower lower "bsc-testnet") = _
    rw [hB]; decide
  have hgM : mapGet NetworkConfigs (ToLower lower (chainInputOf
      GenerateMultiChainConfig.polygonMumbai).Network) = none := by
    show mapGet NetworkConfigs (ToLower lower "polygon-mumbai") = _
    rw [hM]; decide
  have hmumbai : ∀ (m : MultiChainConfig) (k : ecdsa.PrivateKey),
      m.AddChainWithKey lower (chainInputOf GenerateMultiChainConfig.polygonMumbai) k =
        (m, some "unsupported network: polygon-mumbai") :=
    fun m k => AddChainWithKey_unknown lower m _ k hgM
  have hprovider : ∀ (n : NetworkConfigFile) (cfg : NetworkConfig),
      n.Provider = "" →
      mapGet NetworkConfigs (ToLower lower (chainInputOf n).Network) = some cfg →
      (mc.AddChainWithKey lower (chainInputOf n) key).2 = none ∧
      ((mc.AddChainWithKey lower (chainInputOf n) key).1.GetChain n.Name).map
        (fun pool => pool.Provider) = some cfg.DefaultRPC := by
    intro n cfg hp hcfg
    rw [AddChainWithKey_known lower mc _ key cfg hcfg]
    refine ⟨rfl, ?_⟩
    unfold MultiChainConfig.GetChain
    simp only [register_Chains]
    have hname : (chainInputOf n).Network = n.Name := rfl
    have hprov : (chainInputOf n).Provider = "" := hp
    rw [hname, mapGet_mapSet_self, hprov]
    rfl
  have hload : ∀ readers : KeyReaders,
      ∃ err, loadMultiChainConfig lower readers GenerateMultiChainConfig.sampleConfig =
        .error err := by
    intro readers
    have hnets : ∀ m : MultiChainConfig, ∃ err,
        loadMultiChainConfig.addNetworks lower readers m
          GenerateMultiChainConfig.sampleConfig.Networks = .error err := by
      intro m
      show ∃ err, loadMultiChainConfig.addNetworks lower readers m
        [GenerateMultiChainConfig.sepolia, GenerateMultiChainConfig.polygonMumbai,
         GenerateMultiChainConfig.bscTestnet] = .error err
      unfold loadMultiChainConfig.addNetworks
      simp only
      split
      · exact ⟨_, rfl⟩
      · rename_i k1 _
        split
        · exact ⟨_, rfl⟩
        · rename_i added _
          unfold loadMultiChainConfig.addNetworks
          simp only
          split
          · exact ⟨_, rfl⟩
          · rename_i k2 _
            rw [hmumbai added k2]
            exact ⟨_, rfl⟩
    unfold loadMultiChainConfig
    simp only
    obtain ⟨err, he⟩ := hnets _
    rw [he]
    exact ⟨err, rfl⟩
  exact ⟨rfl, hprovider _ _ rfl hgS, hprovider _ _ rfl hgB, by decide, hmumbai mc key, hload⟩

/-- C15 at Lean's ASCII case mapping and with key readers that accept every
key: the sample configuration does not load. -/
theorem sampleConfig_polygon_mumbai_unsupported_witness :
    loadMultiChainConfig Char.toLower sampleReaders GenerateMultiChainConfig.sampleConfig =
      .error "failed to add network polygon-mumbai: unsupported network: polygon-mumbai" ∧
    NewMultiChainConfig.AddChainWithKey Char.toLower
        (chainInputOf GenerateMultiChainConfig.polygonMumbai) sampleKey =
      (NewMultiChainConfig, some "unsupported network: polygon-mumbai") :=
  ⟨rfl,
   (sampleConfig_polygon_mumbai_unsupported Char.toLower (fun _ _ => rfl) NewMultiChainConfig
     sampleKey).2.2.2.2.1⟩

/-! ## Schedules of `checkLimits` calls -/

theorem runSchedule_at (limiter : Cache) (pre post : List Running) (c : Running)
    (now : Int) (rest : List (Nat × Int)) :
    runSchedule limiter (pre ++ c :: post) ((pre.length, now) :: rest) =
      runSchedule (c.step limiter now).1 (pre ++ (c.step limiter now).2 :: post) rest := by
  have hget : (pre ++ c :: post).get? pre.length = some c := by
    rw [List.get?_eq_getElem?, List.getElem?_append_right (le_refl _)]
    simp
  have hset : ∀ x : Running, (pre ++ c :: post).set pre.length x = pre ++ x :: post := by
    intro x
    simp
  rw [runSchedule]
  simp only [hget, hset]

/-- A call that runs from start to end without another call in between does
what `checkLimits` does: same cache afterwards, same result. -/
theorem runSchedule_uninterrupted (ml : MultiChainLimiter) (limiter : Cache)
    (pre post : List Running) (r : Request) (address : String) (k : Ticks)
    (rest : List (Nat × Int)) :
    runSchedule limiter (pre ++ ml.start r address :: post)
        (uninterrupted pre.length k ++ rest) =
      runSchedule (ml.checkLimits limiter r address k).1
        (pre ++ { address := address, ip := getClientIP r ml.proxyCount,
                  stage := (Stage.returned (ml.checkLimits limiter r address k).2) } :: post)
        rest := by
  unfold uninterrupted
  simp only [List.cons_append, List.nil_append]
  cases ha : limiter.live address k.getAddress with
  | true =>
    have hg := Get_hit limiter address k.getAddress ha
    rw [checkLimits_of_live_address ml limiter r address k ha]
    have h1 : (ml.start r address).step limiter k.getAddress =
        ((limiter.Get address k.getAddress).1,
          { address := address, ip := getClientIP r ml.proxyCount,
            stage := (Stage.returned
              (some ("address " ++ address ++ " is requesting too frequently"))) }) := by
      unfold Running.step MultiChainLimiter.start
      simp only
      cases hgg : limiter.Get address k.getAddress with
      | mk c1 b =>
        rw [hgg] at hg
        simp only at hg
        subst hg
        rfl
    rw [runSchedule_at, h1]
    simp only
    rw [runSchedule_at, runSchedule_at, runSchedule_at]
    rfl
  | false =>
    have h1 : (ml.start r address).step limiter k.getAddress =
        (limiter, { address := address, ip := getClientIP r ml.proxyCount,
                    stage := Stage.getIP }) := by
      unfold Running.step MultiChainLimiter.start
      simp only [Get_miss limiter address k.getAddress ha]
    rw [runSchedule_at, h1]
    simp only
    cases hi : limiter.live (getClientIP r ml.proxyCount) k.getIP with
    | true =>
      have hg := Get_hit limiter (getClientIP r ml.proxyCount) k.getIP hi
      rw [checkLimits_of_live_ip ml limiter r address k ha hi]
      have h2 : Running.step limiter k.getIP
          { address := address, ip := getClientIP r ml.proxyCount, stage := Stage.getIP } =
          ((limiter.Get (getClientIP r ml.proxyCount) k.getIP).1,
            { address := address, ip := getClientIP r ml.proxyCount,
              stage := (Stage.returned (some ("IP " ++ getClientIP r ml.proxyCount ++
                " is requesting too frequently"))) }) := by
        unfold Running.step
        simp only
        cases hgg : limiter.Get (getClientIP r ml.proxyCount) k.getIP with
        | mk c1 b =>
          rw [hgg] at hg
          simp only at hg
          subst hg
          rfl
      rw [runSchedule_at, h2]
      simp only
      rw [runSchedule_at, runSchedule_at]
      rfl
    | false =>
      rw [checkLimits_of_free ml limiter r address k ha hi]
      have h2 : Running.step limiter k.getIP
          { address := address, ip := getClientIP r ml.proxyCount, stage := Stage.getIP } =
          (limiter, { address := address, ip := getClientIP r ml.proxyCount,
                      stage := Stage.setAddress }) := by
        unfold Running.step
        simp only [Get_miss limiter (getClientIP r ml.proxyCount) k.getIP hi]
      rw [runSchedule_at, h2]
      simp only
      rw [runSchedule_at, runSchedule_at]
      rfl

/-- Calls that run one after another leave the cache and the results of
successive `checkLimits`. -/
theorem runSchedule_oneAfterAnother (ml : MultiChainLimiter) (xs : List Arrival) :
    ∀ (limiter : Cache) (pre : List Running),
      runSchedule limiter (pre ++ xs.map (fun x => ml.start x.r x.req.Address))
          (oneAfterAnother pre.length (xs.map (fun x => x.k))) =
        (checkAll ml limiter xs, pre ++ finished ml limiter xs) := by
  induction xs with
  | nil =>
    intro limiter pre
    simp [oneAfterAnother, runSchedule, checkAll, finished]
  | cons x rest ih =>
    intro limiter pre
    simp only [List.map_cons, oneAfterAnother]
    rw [runSchedule_uninterrupted]
    have hpool : ∀ c : Running, pre ++ c :: List.map (fun x => ml.start x.r x.req.Address) rest =
        (pre ++ [c]) ++ List.map (fun x => ml.start x.r x.req.Address) rest := by
      intro c
      simp
    have hlen : ∀ c : Running, pre.length + 1 = (pre ++ [c]).length := by
      intro c
      simp
    rw [hpool, hlen, ih]
    simp [checkAll, finished]

theorem finished_stages (ml : MultiChainLimiter) (xs : List Arrival) :
    ∀ limiter : Cache,
      (finished ml limiter xs).map (fun c => c.stage) =
        (checkOutcomes ml limiter xs).map Stage.returned := by
  induction xs with
  | nil => intro limiter; rfl
  | cons x rest ih =>
    intro limiter
    simp only [finished, checkOutcomes, List.map_cons, ih]

/-- After both keys are set, the first key set holds an item with the cache's
time to live that, when it expires at all, does not expire before that time
has run out since the first `Set`. -/
theorem item_after_sets (c : Cache) (a ip : String) (t3 t4 : Int) (hclock : t3 ≤ t4) :
    ((c.Set a t3).Set ip t4).ttl = c.ttl ∧
    ∃ it, mapGet ((c.Set a t3).Set ip t4).items a = some it ∧ it.ttl = c.ttl ∧
      (0 < c.ttl → t3 + c.ttl ≤ it.expireAt) := by
  refine ⟨by rw [Set_ttl, Set_ttl], ?_⟩
  by_cases hne : a = ip
  · subst hne
    obtain ⟨e, hm, he⟩ := Set_self (c.Set a t3) a t4
    rw [Set_ttl] at hm he
    refine ⟨_, hm, rfl, ?_⟩
    intro hp
    have := he hp
    simp only
    omega
  · obtain ⟨e, hm, he⟩ := Set_self c a t3
    have hm2 := Set_other (c.Set a t3) ip a t4 hne
    rw [hm] at hm2
    refine ⟨_, hm2, rfl, ?_⟩
    intro hp
    have := he hp
    simp only
    omega

/-- A hit leaves under the key an item with the same time to live that does
not expire earlier than `now` plus that time, or the item as it was. -/
theorem getItem_keeps (c : Cache) (key : String) (now L T : Int) (it : Item)
    (hc : c.ttl = L) (hm : mapGet c.items key = some it) (hl : it.ttl = L)
    (hexp : 0 < L → T ≤ it.expireAt) (hnow : 0 < L → T ≤ now + L) :
    (c.getItem key now).1.ttl = L ∧
    ∃ it2, mapGet (c.getItem key now).1.items key = some it2 ∧ it2.ttl = L ∧
      (0 < L → T ≤ it2.expireAt) := by
  refine ⟨by rw [getItem_ttl]; exact hc, ?_⟩
  subst hl
  have hit1 : (if (it.ttl == 0) = true then { it with ttl := c.ttl } else it) = it := by
    by_cases h0 : it.ttl = 0
    · have hc0 : c.ttl = 0 := by omega
      cases it with
      | mk t e =>
        simp only at h0
        subst h0
        simp [hc0]
    · simp [h0]
  unfold Cache.getItem
  rw [hm]
  simp only
  split
  · exact ⟨it, hm, rfl, hexp⟩
  · split
    · exact ⟨it, hm, rfl, hexp⟩
    · simp only [mapGet_mapSet_self, hit1]
      refine ⟨_, rfl, ?_, ?_⟩
      · unfold Item.touch
        split <;> rfl
      · intro hp
        have := hnow hp
        unfold Item.touch
        simp only [gt_iff_lt, hp, if_true]
        omega

/-- While the address entry is held, every further `checkLimits` for that
address, made one after another, is denied. -/
theorem checkOutcomes_held (ml : MultiChainLimiter) (a : String) (L T t3 : Int)
    (hT : T = t3 + L) (later : List Arrival) :
    ∀ c : Cache, c.ttl = L →
      (∃ it, mapGet c.items a = some it ∧ it.ttl = L ∧ (0 < L → T ≤ it.expireAt)) →
      (∀ y ∈ later, y.req.Address = a ∧ t3 ≤ y.k.getAddress ∧
        (L ≤ 0 ∨ y.k.getAddress ≤ T)) →
      checkOutcomes ml c later =
        later.map (fun _ => some ("address " ++ a ++ " is requesting too frequently")) := by
  induction later with
  | nil => intro c _ _ _; rfl
  | cons y rest ih =>
    intro c hc hheld hlater
    obtain ⟨it, hm, hl, hexp⟩ := hheld
    obtain ⟨hya, hy3, hyT⟩ := hlater y (List.mem_cons_self _ _)
    have hlive : c.live a y.k.getAddress = true := by
      refine live_of_item c a _ it hm ?_
      intro hp
      rw [hl] at hp
      have := hexp hp
      rcases hyT with h | h
      · omega
      · omega
    have hcl := checkLimits_of_live_address ml c y.r a y.k hlive
    have hkeep := getItem_keeps c a y.k.getAddress L T it hc hm hl hexp (by intro _; omega)
    simp only [checkOutcomes, List.map_cons, hya, hcl, Get_fst]
    congr 1
    exact ih _ hkeep.1 hkeep.2 (fun z hz => hlater z (List.mem_cons_of_mem _ hz))

/-- On a limiter with no entries, of the calls for one address made one after
another within the time to live of the first, the first is granted and every
other is denied. -/
theorem checkOutcomes_same_address (ml : MultiChainLimiter) (limiter : Cache) (a : String)
    (first : Arrival) (later : List Arrival)
    (hfresh : limiter.items = []) (hfirst : first.req.Address = a)
    (hclock : first.k.setAddress ≤ first.k.setIP)
    (hlater : ∀ y ∈ later, y.req.Address = a ∧ first.k.setIP ≤ y.k.getAddress ∧
      (limiter.ttl ≤ 0 ∨ y.k.getAddress ≤ first.k.setAddress + limiter.ttl)) :
    checkOutcomes ml limiter (first :: later) =
      none :: later.map (fun _ => some ("address " ++ a ++ " is requesting too frequently")) := by
  have h1 := checkLimits_of_free ml limiter first.r a first.k
    (live_fresh limiter a first.k.getAddress hfresh)
    (live_fresh limiter (getClientIP first.r ml.proxyCount) first.k.getIP hfresh)
  obtain ⟨httl, hitem⟩ := item_after_sets limiter a (getClientIP first.r ml.proxyCount)
    first.k.setAddress first.k.setIP hclock
  simp only [checkOutcomes, hfirst, h1]
  congr 1
  refine checkOutcomes_held ml a limiter.ttl (first.k.setAddress + limiter.ttl)
    first.k.setAddress rfl later _ httl hitem ?_
  intro y hy
  obtain ⟨h1, h2, h3⟩ := hlater y hy
  exact ⟨h1, by omega, h3⟩

/-- On a limiter with no entries, two calls that both make their two `Get`
calls before either makes a `Set` call are both granted. -/
theorem runSchedule_bothCheckFirst (ml : MultiChainLimiter) (limiter : Cache)
    (r0 r1 : Request) (a0 a1 : String) (k0 k1 : Ticks) (hfresh : limiter.items = []) :
    ((runSchedule limiter [ml.start r0 a0, ml.start r1 a1] (bothCheckFirst k0 k1)).2.map
      (fun c => c.stage)) = [Stage.returned none, Stage.returned none] := by
  have hfree : ∀ key now, limiter.Get key now = (limiter, false) :=
    fun key now => Get_miss limiter key now (live_fresh limiter key now hfresh)
  unfold bothCheckFirst
  have e0 := runSchedule_at limiter [] [ml.start r1 a1] (ml.start r0 a0)
  simp only [List.nil_append, List.length_nil] at e0
  rw [e0]
  simp only [Running.step, MultiChainLimiter.start, hfree]
  have e1 := fun (c : Cache) (x : Running) (now : Int) (rest : List (Nat × Int)) =>
    runSchedule_at c [] [ml.start r1 a1] x now rest
  simp only [List.nil_append, List.length_nil, MultiChainLimiter.start] at e1
  rw [e1]
  simp only [Running.step, hfree]
  have e2 := fun (c : Cache) (x y : Running) (now : Int) (rest : List (Nat × Int)) =>
    runSchedule_at c [x] [] y now rest
  simp only [List.singleton_append, List.length_singleton] at e2
  rw [e2]
  simp only [Running.step, hfree]
  rw [e2]
  simp only [Running.step, hfree]
  have e3 := fun (c : Cache) (x y : Running) (now : Int) (rest : List (Nat × Int)) =>
    runSchedule_at c [] [y] x now rest
  simp only [List.nil_append, List.length_nil] at e3
  rw [e3]
  simp only [Running.step]
  rw [e3]
  simp only [Running.step]
  rw [e2]
  simp only [Running.step]
  rw [e2]
  simp only [Running.step]
  rfl

/-- C7, as stated, fails for N = 2.  Two calls for `addrA` from two clients on
the empty one-minute limiter, scheduled so that both make their two `Get`
calls before either makes a `Set` call, are both granted; the same two calls
made one after another give one grant and one denial. -/
theorem concurrent_calls_counterexample :
    minuteLimiter.items = [] ∧
    (runSchedule minuteLimiter
        [sampleLimiter.start clientOne addrA, sampleLimiter.start clientTwo addrA]
        (bothCheckFirst (Ticks.at 0) (Ticks.at 0))).2.map (fun c => c.stage) =
      [Stage.returned none, Stage.returned none] ∧
    (runSchedule minuteLimiter
        [sampleLimiter.start clientOne addrA, sampleLimiter.start clientTwo addrA]
        (oneAfterAnother 0 [Ticks.at 0, Ticks.at 0])).2.map (fun c => c.stage) =
      [Stage.returned none,
       Stage.returned (some ("address " ++ addrA ++ " is requesting too frequently"))] := by
  decide

/-- C7, amended.  On a limiter with no entries, 1 + n calls of `checkLimits`
for the same address that run one after another, each making its four cache
calls before the next starts and the later ones starting within the time to
live of the first, give exactly one grant, to the first call, and n denials
naming the address.  The check of both keys and the insertion of both keys
are four separate cache calls and not one step: two calls for the same
address that both make their two `Get` calls before either makes a `Set` call
are both granted. -/
theorem checkLimits_calls_same_address (ml : MultiChainLimiter) (limiter : Cache)
    (a : String) (hfresh : limiter.items = []) :
    (∀ (first : Arrival) (later : List Arrival),
      first.req.Address = a → first.k.setAddress ≤ first.k.setIP →
      (∀ y ∈ later, y.req.Address = a ∧ first.k.setIP ≤ y.k.getAddress ∧
        (limiter.ttl ≤ 0 ∨ y.k.getAddress ≤ first.k.setAddress + limiter.ttl)) →
      (runSchedule limiter ((first :: later).map (fun x => ml.start x.r x.req.Address))
          (oneAfterAnother 0 ((first :: later).map (fun x => x.k)))).2.map
          (fun c => c.stage) =
        Stage.returned none ::
          later.map (fun _ =>
            Stage.returned (some ("address " ++ a ++ " is requesting too frequently")))) ∧
    (∀ (r0 r1 : Request) (k0 k1 : Ticks),
      (runSchedule limiter [ml.start r0 a, ml.start r1 a] (bothCheckFirst k0 k1)).2.map
          (fun c => c.stage) =
        [Stage.returned none, Stage.returned none]) := by
  constructor
  · intro first later hfirst hclock hlater
    have hrun := runSchedule_oneAfterAnother ml (first :: later) limiter []
    simp only [List.nil_append, List.length_nil] at hrun
    rw [hrun]
    simp only
    rw [finished_stages, checkOutcomes_same_address ml limiter a first later hfresh hfirst
      hclock hlater]
    simp only [List.map_cons, List.map_map]
    rfl
  · intro r0 r1 k0 k1
    exact runSchedule_bothCheckFirst ml limiter r0 r1 a a k0 k1 hfresh

/-- C7, amended, at a concrete input: three calls for `addrA` on the
one-minute limiter, at instant 0, at 1 s and at 2 s, one after another. -/
theorem checkLimits_calls_same_address_witness :
    (runSchedule minuteLimiter
        ((firstArrival :: laterArrivals).map
          (fun x => sampleLimiter.start x.r x.req.Address))
        (oneAfterAnother 0 ((firstArrival :: laterArrivals).map (fun x => x.k)))).2.map
        (fun c => c.stage) =
      Stage.returned none ::
        laterArrivals.map (fun _ =>
          Stage.returned (some ("address " ++ addrA ++ " is requesting too frequently"))) :=
  (checkLimits_calls_same_address sampleLimiter minuteLimiter addrA rfl).1
    firstArrival laterArrivals rfl (by decide) (by decide)

end Faucet
